import Mathlib

/-!
Verification development for the MLB pitch-predictor engine
(single-file JS source `pollGame.js`).

The JavaScript source is shallowly embedded: JS numbers become exact
rationals (`Rat`), nullable values become `Option`, the mutable global
stores become explicit association lists threaded through the functions,
and code that can throw returns `Option` (with `none` marking the thrown
exception).  Definitions keep the names and the statement order of the
source functions.
-/

namespace MLB

/-! ## String helpers (JS `includes`, `toUpperCase`, `toLowerCase`) -/

/-- Prefix test on character lists (used to model JS `String.includes`). -/
def listPrefixOf : List Char → List Char → Bool
  | [], _ => true
  | _ :: _, [] => false
  | p :: ps, c :: cs => p = c && listPrefixOf ps cs

/-- Substring occurrence test on character lists. -/
def listInfixOf (pat : List Char) : List Char → Bool
  | [] => listPrefixOf pat []
  | c :: rest => listPrefixOf pat (c :: rest) || listInfixOf pat rest

/-- JS `s.includes(pat)` for the non-empty literals used by the source. -/
def containsSub (s pat : String) : Bool := listInfixOf pat.data s.data

/-- JS `String.prototype.toUpperCase` restricted to ASCII (all codes in the
source are ASCII). -/
def strUpper (s : String) : String := ⟨s.data.map Char.toUpper⟩

/-- JS `String.prototype.toLowerCase` restricted to ASCII. -/
def strLower (s : String) : String := ⟨s.data.map Char.toLower⟩

/-- JS `s.startsWith(pat)`. -/
def strStartsWith (s pat : String) : Bool := listPrefixOf pat.data s.data

/-- JS truthiness of a nullable string (empty string and null are falsy). -/
def jsTruthyStr : Option String → Bool
  | some s => s != ""
  | none => false

/-! ## Association lists: explicit model of the JS object stores -/

/-- JS objects used as dictionaries (`pitchCoordCache`, the profile stores)
are modelled as association lists; insertion prepends, lookup takes the
most recent binding, which matches JS last-write-wins assignment. -/
abbrev AList (α β : Type) := List (α × β)

def alookup [DecidableEq α] {β : Type} : AList α β → α → Option β
  | [], _ => none
  | (k, v) :: rest, key => if k = key then some v else alookup rest key

def aset [DecidableEq α] {β : Type} (m : AList α β) (key : α) (v : β) : AList α β :=
  (key, v) :: m

/-! ## Pitch families and three-entry distributions -/

/-- The three pitch families of the engine. -/
inductive Family where
  | fastball
  | breaking
  | change
deriving DecidableEq, Repr

/-- A three-entry family-share record (the `{fastball, breaking, change}`
objects of the source).  No invariant is built in: the source freely holds
non-normalized and even negative intermediate values. -/
structure Mix where
  fastball : Rat
  breaking : Rat
  change : Rat
deriving DecidableEq, Repr

/-- Sum of the three entries (verification-side helper). -/
def Mix.total (m : Mix) : Rat := m.fastball + m.breaking + m.change

def Mix.get (m : Mix) : Family → Rat
  | .fastball => m.fastball
  | .breaking => m.breaking
  | .change => m.change

/-- `normalize` from the source (pollGame.js lines 143–146):
divide every entry by the sum, where a zero sum is replaced by 1
(the JS `|| 1`).  Note that it does NOT floor negative entries. -/
def normalize (m : Mix) : Mix :=
  let s0 := m.fastball + m.breaking + m.change
  let s := if s0 = 0 then 1 else s0
  ⟨m.fastball / s, m.breaking / s, m.change / s⟩

/-- `leaguePitchMixByCount` (pollGame.js lines 128–141), keyed by the exact
ball–strike count. -/
def leaguePitchMixByCount (balls strikes : Nat) : Option Mix :=
  match balls, strikes with
  | 0, 0 => some ⟨0.63, 0.25, 0.12⟩
  | 0, 1 => some ⟨0.55, 0.3, 0.15⟩
  | 0, 2 => some ⟨0.4, 0.43, 0.17⟩
  | 1, 0 => some ⟨0.7, 0.2, 0.1⟩
  | 1, 1 => some ⟨0.58, 0.3, 0.12⟩
  | 1, 2 => some ⟨0.42, 0.45, 0.13⟩
  | 2, 0 => some ⟨0.72, 0.18, 0.1⟩
  | 2, 1 => some ⟨0.6, 0.28, 0.12⟩
  | 2, 2 => some ⟨0.5, 0.38, 0.12⟩
  | 3, 0 => some ⟨0.85, 0.1, 0.05⟩
  | 3, 1 => some ⟨0.75, 0.15, 0.1⟩
  | 3, 2 => some ⟨0.7, 0.2, 0.1⟩
  | _, _ => none

/-! ## Pitch-family classifier -/

/-- The explicit code normalization inside `mapPitchCodeToBucket`
(pollGame.js line 161): FT is treated as SI, ST as SW. -/
def normalizeCode (c : String) : String :=
  if c = "FT" then "SI" else if c = "ST" then "SW" else c

/-- The membership tables of `mapPitchCodeToBucket` in source order. -/
def fastballCodes : List String := ["FF", "FT", "SI", "FC", "FA"]
def splitterCodes : List String := ["FS"]
def changeCodes : List String := ["CH", "SF", "FO", "SC"]
def breakingCodes : List String := ["SL", "CU", "KC", "KN", "SV", "ST", "SW"]

/-- `mapPitchCodeToBucket` (pollGame.js lines 156–178).  A falsy code
(null/undefined/empty string) yields `none`; otherwise the uppercased,
normalized code is looked up, defaulting to fastball. -/
def mapPitchCodeToBucket (code : Option String) : Option Family :=
  match code with
  | none => none
  | some raw =>
    if raw = "" then none
    else
      let c := strUpper raw
      let normalized := normalizeCode c
      if normalized ∈ fastballCodes then some .fastball
      else if normalized ∈ splitterCodes then some .change
      else if normalized ∈ changeCodes then some .change
      else if normalized ∈ breakingCodes then some .breaking
      else some .fastball

/-! ## Locations / movement records -/

/-- The location-or-movement records returned by the coordinate resolver
(and carried by prediction contexts).  JS objects of varying shapes are
unified into one structure with optional fields; a field the JS object
does not carry is `none`. -/
structure Loc where
  hasLocation : Bool := false
  isBreakData : Bool := false
  px : Option Rat := none
  pz : Option Rat := none
  szTop : Option Rat := none
  szBot : Option Rat := none
  hb : Option Rat := none
  vb : Option Rat := none
  angle : Option Rat := none
  length : Option Rat := none
deriving DecidableEq, Repr

/-- `classifyLocation` (pollGame.js lines 490–508): 3×3 zone labels. -/
def classifyLocation (px pz szTop szBot : Option Rat) : Option String :=
  match px, pz, szTop, szBot with
  | some px, some pz, some szTop, some szBot =>
    let horizontal := if px > 0.5 then "ARM" else if px < -0.5 then "GLOVE" else "MIDDLE"
    let zoneHeight := szTop - szBot
    let highThresh := szTop - zoneHeight / 3
    let lowThresh := szBot + zoneHeight / 3
    let height := if pz ≥ highThresh then "HIGH" else if pz ≤ lowThresh then "LOW" else "MID"
    some (height ++ "_" ++ horizontal)
  | _, _, _, _ => none

/-- `prettyLocationLabel` (pollGame.js lines 510–534). -/
def prettyLocationLabel (zone : Option String) : Option String :=
  match zone with
  | none => none
  | some z =>
    if z = "HIGH_ARM" then some "Up & in"
    else if z = "HIGH_MIDDLE" then some "Up"
    else if z = "HIGH_GLOVE" then some "Up & away"
    else if z = "MID_ARM" then some "In"
    else if z = "MID_MIDDLE" then some "Middle"
    else if z = "MID_GLOVE" then some "Away"
    else if z = "LOW_ARM" then some "Down & in"
    else if z = "LOW_MIDDLE" then some "Down"
    else if z = "LOW_GLOVE" then some "Down & away"
    else some z

/-! ## Tunnel detection -/

def TUNNEL_HORIZONTAL_THRESHOLD : Rat := 0.3
def TUNNEL_VERTICAL_THRESHOLD : Rat := 0.3
def TUNNEL_BREAK_DIFF_THRESHOLD : Rat := 3.0

structure TunnelInfo where
  pxDiff : Rat
  pzDiff : Rat
  hbDiff : Rat
  vbDiff : Rat
  totalBreakDiff : Rat
  label : String
deriving DecidableEq, Repr

/-- The one-pitch-lookback context saved in the `lastCtx` global: only the
last pitch code and the resolved location are kept. -/
structure TunnelCtx where
  lastPitchType : Option String := none
  location : Option Loc := none
deriving DecidableEq, Repr

/-- The label construction at the end of `detectTunnel`
(pollGame.js lines 577–594): the generic label is replaced only when both
pitch-type codes are truthy. -/
def tunnelLabel (prevType currType : Option String) : String :=
  match prevType, currType with
  | some pt, some ct =>
    if pt = "" ∨ ct = "" then "Pitch Tunnel Detected"
    else
      let p := strUpper pt
      let c := strUpper ct
      if (p = "FF" ∨ p = "SI") ∧ (c = "SL" ∨ c = "SW") then "Fastball → Slider Tunnel"
      else if (p = "FF" ∨ p = "SI") ∧ c = "CH" then "Fastball → Change Fade Tunnel"
      else if p = "SL" ∧ c = "CU" then "Slider → Curveball Break Stack"
      else pt ++ " → " ++ ct ++ " Tunnel"
  | _, _ => "Pitch Tunnel Detected"

/-- `detectTunnel` (pollGame.js lines 544–604).  Absent unless both
contexts carry a location record with either a true location or break
data; requires both early-trajectory diffs strictly below 0.3; rejects
when the summed break diff is strictly below 3.0 (so exactly 3.0 passes). -/
def detectTunnel (prevCtx currCtx : Option TunnelCtx) : Option TunnelInfo :=
  match prevCtx, currCtx with
  | some pc, some cc =>
    match pc.location, cc.location with
    | some A, some B =>
      if !A.hasLocation && !A.isBreakData then none
      else if !B.hasLocation && !B.isBreakData then none
      else
        let pxA := A.px.getD 0
        let pxB := B.px.getD 0
        let pzA := A.pz.getD 0
        let pzB := B.pz.getD 0
        let pxDiff := |pxA - pxB|
        let pzDiff := |pzA - pzB|
        if pxDiff < TUNNEL_HORIZONTAL_THRESHOLD ∧ pzDiff < TUNNEL_VERTICAL_THRESHOLD then
          let hbDiff := |A.hb.getD 0 - B.hb.getD 0|
          let vbDiff := |A.vb.getD 0 - B.vb.getD 0|
          let totalBreakDiff := hbDiff + vbDiff
          if totalBreakDiff < TUNNEL_BREAK_DIFF_THRESHOLD then none
          else
            some { pxDiff := pxDiff, pzDiff := pzDiff, hbDiff := hbDiff, vbDiff := vbDiff,
                   totalBreakDiff := totalBreakDiff,
                   label := tunnelLabel pc.lastPitchType cc.lastPitchType }
        else none
    | _, _ => none
  | _, _ => none

/-! ## The game feed data model

Nested records of the MLB live-feed snapshot, restricted to the fields the
engine reads.  Optional JS fields become `Option`; fields the feed always
carries (play `about`, `matchup`) are plain fields. -/

structure CoordsPD where
  pX : Option Rat := none
  pZ : Option Rat := none
deriving DecidableEq, Repr

structure PitchDataRec where
  coordinates : Option CoordsPD := none
  strikeZoneTop : Option Rat := none
  strikeZoneBottom : Option Rat := none
  pitchNumber : Option Nat := none
  startSpeed : Option Rat := none
deriving DecidableEq, Repr

structure DetailsCoords where
  px : Option Rat := none
  pz : Option Rat := none
  strikeZoneTop : Option Rat := none
  strikeZoneBottom : Option Rat := none
deriving DecidableEq, Repr

structure TypeRec where
  code : Option String := none
deriving DecidableEq, Repr

structure DetailsRec where
  coordinates : Option DetailsCoords := none
  pitchNumber : Option Nat := none
  description : Option String := none
  isInPlay : Bool := false
  type : Option TypeRec := none
  startSpeed : Option Rat := none
deriving DecidableEq, Repr

structure BreaksRec where
  breakHorizontal : Option Rat := none
  breakVerticalInduced : Option Rat := none
  breakAngle : Option Rat := none
  breakLength : Option Rat := none
deriving DecidableEq, Repr

structure CountRec where
  balls : Option Nat := none
  strikes : Option Nat := none
deriving DecidableEq, Repr

structure HitDataRec where
  launchSpeed : Option Rat := none
deriving DecidableEq, Repr

structure PitchEvent where
  isPitch : Bool := false
  pitchNumber : Option Nat := none
  pitchData : Option PitchDataRec := none
  details : Option DetailsRec := none
  breaks : Option BreaksRec := none
  count : Option CountRec := none
  hitData : Option HitDataRec := none
deriving DecidableEq, Repr

structure AboutRec where
  atBatIndex : Option Nat := none
  inning : Nat := 1
  halfInning : String := "top"
deriving DecidableEq, Repr

structure PersonRec where
  id : Nat := 0
deriving DecidableEq, Repr

structure HandRec where
  code : Option String := none
deriving DecidableEq, Repr

structure MatchupRec where
  pitcher : PersonRec := {}
  batter : PersonRec := {}
  pitchHand : Option HandRec := none
  batSide : Option HandRec := none
deriving DecidableEq, Repr

structure RunnerRec where
  startingBase : Option Nat := none
deriving DecidableEq, Repr

structure ResultRec where
  event : Option String := none
  eventType : Option String := none
deriving DecidableEq, Repr

structure Play where
  about : AboutRec := {}
  matchup : MatchupRec := {}
  result : Option ResultRec := none
  runners : Option (List RunnerRec) := none
  playEvents : List PitchEvent := []
deriving DecidableEq, Repr

/-- `game.liveData.plays.allPlays`. -/
structure Game where
  allPlays : List Play := []
deriving DecidableEq, Repr

/-! ## Best-available coordinates system -/

/-- A `pitchCoordCache` entry as written by `storeCoordsInCache`
(pollGame.js lines 297–312): `szTop`/`szBot` are always filled with the
3.5/1.5 defaults, the remaining fields keep their nullability. -/
structure CoordRec where
  px : Option Rat := none
  pz : Option Rat := none
  szTop : Rat := 3.5
  szBot : Rat := 1.5
  hb : Option Rat := none
  vb : Option Rat := none
  angle : Option Rat := none
  length : Option Rat := none
deriving DecidableEq, Repr

abbrev Cache := AList String CoordRec

/-- The pitch-number fallback chain
`pitch.pitchNumber ?? pitch.details?.pitchNumber ?? pitch.pitchData?.pitchNumber`. -/
def pitchNumberOf (pitch : PitchEvent) : Option Nat :=
  (pitch.pitchNumber <|> (pitch.details.bind (·.pitchNumber))) <|>
    (pitch.pitchData.bind (·.pitchNumber))

/-- `getCoordKey` (pollGame.js lines 282–295): string key
`atBatIndex-pitchNumber`, with an `inning-halfInning` fallback when the
at-bat index is absent and 0 as the pitch-number fallback. -/
def getCoordKey (play : Play) (pitch : PitchEvent) : String :=
  let atBatKey :=
    match play.about.atBatIndex with
    | some a => toString a
    | none => toString play.about.inning ++ "-" ++ play.about.halfInning
  atBatKey ++ "-" ++ toString ((pitchNumberOf pitch).getD 0)

/-- `storeCoordsInCache` (pollGame.js lines 297–312). -/
def storeCoordsInCache (cache : Cache) (play : Play) (pitch : PitchEvent)
    (coord : Option Loc) : Cache :=
  match coord with
  | none => cache
  | some c =>
    aset cache (getCoordKey play pitch)
      { px := c.px, pz := c.pz, szTop := c.szTop.getD 3.5, szBot := c.szBot.getD 1.5,
        hb := c.hb, vb := c.vb, angle := c.angle, length := c.length }

/-- `extractCoordinatesFromPitch` (pollGame.js lines 319–345):
Statcast pX/pZ preferred over the legacy details px/pz. -/
def extractCoordinatesFromPitch (pitch : Option PitchEvent) : Loc :=
  match pitch with
  | none => { hasLocation := false }
  | some pitch =>
    match pitch.pitchData.bind (·.coordinates) with
    | some pd =>
      match pd.pX, pd.pZ with
      | some x, some z =>
        { hasLocation := true, px := some x, pz := some z,
          szTop := some (((pitch.pitchData.bind (·.strikeZoneTop))).getD 3.5),
          szBot := some (((pitch.pitchData.bind (·.strikeZoneBottom))).getD 1.5) }
      | _, _ => extractFromDetails pitch
    | none => extractFromDetails pitch
where
  /-- The legacy `pitch.details.coordinates` branch. -/
  extractFromDetails (pitch : PitchEvent) : Loc :=
    match pitch.details.bind (·.coordinates) with
    | some dc =>
      match dc.px, dc.pz with
      | some x, some z =>
        { hasLocation := true, px := some x, pz := some z,
          szTop := some (dc.strikeZoneTop.getD 3.5),
          szBot := some (dc.strikeZoneBottom.getD 1.5) }
      | _, _ => { hasLocation := false }
    | none => { hasLocation := false }

/-- The movement-only record built from a `breaks` block (tier 1.5 and the
tier-3 break branch of `getPitchCoordinates`). -/
def breaksLoc (br : BreaksRec) : Loc :=
  { hasLocation := false, isBreakData := true,
    hb := br.breakHorizontal, vb := br.breakVerticalInduced,
    angle := br.breakAngle, length := br.breakLength }

/-- The cached movement coordinate object stored by tiers 1.5/3
(`px: null, pz: null, szTop: 3.5, szBot: 1.5, hb, vb, angle, length`). -/
def breaksCacheCoord (br : BreaksRec) : Loc :=
  { hasLocation := false, px := none, pz := none,
    szTop := some 3.5, szBot := some 1.5,
    hb := br.breakHorizontal, vb := br.breakVerticalInduced,
    angle := br.breakAngle, length := br.breakLength }

/-- The tier-3 scan over one play's events (inner loop of
`getPitchCoordinates`, pollGame.js lines 433–477): first event with the
same pitch number that yields either a true location or break data wins. -/
def tier3ScanEvents (cache : Cache) (play : Play) (pitch : PitchEvent)
    (pitchNum : Nat) : List PitchEvent → Option (Loc × Cache)
  | [] => none
  | ev :: rest =>
    if !ev.isPitch then tier3ScanEvents cache play pitch pitchNum rest
    else if pitchNumberOf ev ≠ some pitchNum then tier3ScanEvents cache play pitch pitchNum rest
    else
      let evCoord := extractCoordinatesFromPitch (some ev)
      if evCoord.hasLocation then
        some (evCoord, storeCoordsInCache cache play pitch (some evCoord))
      else
        match ev.breaks with
        | some br2 =>
          if br2.breakHorizontal.isSome ∧ br2.breakVerticalInduced.isSome then
            some (breaksLoc br2, storeCoordsInCache cache play pitch (some (breaksCacheCoord br2)))
          else tier3ScanEvents cache play pitch pitchNum rest
        | none => tier3ScanEvents cache play pitch pitchNum rest

/-- The tier-3 scan over all plays sharing the at-bat index (outer loop,
pollGame.js lines 430–478). -/
def tier3Scan (cache : Cache) (play : Play) (pitch : PitchEvent)
    (atBatIndex pitchNum : Nat) : List Play → Option (Loc × Cache)
  | [] => none
  | p2 :: rest =>
    if p2.about.atBatIndex ≠ some atBatIndex then
      tier3Scan cache play pitch atBatIndex pitchNum rest
    else
      match tier3ScanEvents cache play pitch pitchNum p2.playEvents with
      | some r => some r
      | none => tier3Scan cache play pitch atBatIndex pitchNum rest

/-- `getPitchCoordinates` (pollGame.js lines 355–483), with the coordinate
cache threaded explicitly.  The outer `Option` is `none` exactly when the
JS function would throw (play index out of range: `play.playEvents` on
`undefined`); otherwise it returns the resolved record and the updated
cache.  Resolution order: direct location, movement (breaks), cache,
cross-reference scan, no-data sentinel. -/
def getPitchCoordinates (cache : Cache) (game : Game) (playIdx pitchIdx : Nat) :
    Option (Loc × Cache) :=
  match game.allPlays[playIdx]? with
  | none => none
  | some play =>
    match play.playEvents[pitchIdx]? with
    | none => some ({ hasLocation := false }, cache)
    | some pitch =>
      let atBatIndex := play.about.atBatIndex
      let pitchNum := pitchNumberOf pitch
      let direct := extractCoordinatesFromPitch (some pitch)
      if direct.hasLocation then
        some (direct, storeCoordsInCache cache play pitch (some direct))
      else
        match pitch.breaks with
        | some br =>
          if br.breakHorizontal.isSome ∧ br.breakVerticalInduced.isSome then
            some (breaksLoc br, storeCoordsInCache cache play pitch (some (breaksCacheCoord br)))
          else getPitchCoordinatesTail cache game play pitch atBatIndex pitchNum
        | none => getPitchCoordinatesTail cache game play pitch atBatIndex pitchNum
where
  /-- Tiers 2 (cache) and 3 (cross-reference scan) and the tier-4 sentinel. -/
  getPitchCoordinatesTail (cache : Cache) (game : Game) (play : Play)
      (pitch : PitchEvent) (atBatIndex pitchNum : Option Nat) : Option (Loc × Cache) :=
    match atBatIndex, pitchNum with
    | some a, some n =>
      (match alookup cache (getCoordKey play pitch) with
       | some c =>
         let hasLoc := c.px.isSome && c.pz.isSome
         some ({ hasLocation := hasLoc,
                 isBreakData := !hasLoc && (c.hb.isSome || c.vb.isSome),
                 px := c.px, pz := c.pz, szTop := some c.szTop, szBot := some c.szBot,
                 hb := c.hb, vb := c.vb, angle := c.angle, length := c.length }, cache)
       | none =>
         match tier3Scan cache play pitch a n game.allPlays with
         | some r => some r
         | none => some ({ hasLocation := false }, cache))
    | _, _ => some ({ hasLocation := false }, cache)

/-! ## Statistical context store -/

/-- `pitcherGameStats[pid]`: in-game family counters. -/
structure PitcherGameRec where
  fastball : Nat := 0
  breaking : Nat := 0
  change : Nat := 0
  total : Nat := 0
deriving DecidableEq, Repr

/-- `updatePitcherStats` (pollGame.js lines 1273–1291). -/
def updatePitcherStats (play : Play) (pitch : PitchEvent)
    (store : AList Nat PitcherGameRec) : AList Nat PitcherGameRec :=
  let pitcherId := play.matchup.pitcher.id
  let code := (pitch.details.bind (·.type)).bind (·.code)
  match mapPitchCodeToBucket code with
  | none => store
  | some bucket =>
    let stats := (alookup store pitcherId).getD {}
    let stats :=
      match bucket with
      | .fastball => { stats with fastball := stats.fastball + 1 }
      | .breaking => { stats with breaking := stats.breaking + 1 }
      | .change => { stats with change := stats.change + 1 }
    aset store pitcherId { stats with total := stats.total + 1 }

/-- `getPitcherGameMix` (pollGame.js lines 1293–1302). -/
def getPitcherGameMix (store : AList Nat PitcherGameRec) (pitcherId : Nat) : Option Mix :=
  match alookup store pitcherId with
  | none => none
  | some stats =>
    if stats.total = 0 then none
    else some (normalize ⟨(stats.fastball : Rat), (stats.breaking : Rat), (stats.change : Rat)⟩)

/-- `isSwing` (pollGame.js lines 1305–1314). -/
def isSwing (pitch : PitchEvent) : Bool :=
  let d := strLower (((pitch.details.bind (·.description))).getD "")
  if (pitch.details.map (·.isInPlay)).getD false then true
  else if containsSub d "swinging" then true
  else if containsSub d "foul" then true
  else if containsSub d "in play" then true
  else false

/-- `batterAggressionStats[bid]`. -/
structure AggressionRec where
  swings : Nat := 0
  pitches : Nat := 0
deriving DecidableEq, Repr

/-- `updateBatterStats` (pollGame.js lines 1316–1326). -/
def updateBatterStats (play : Play) (pitch : PitchEvent)
    (store : AList Nat AggressionRec) : AList Nat AggressionRec :=
  let batterId := play.matchup.batter.id
  let stats := (alookup store batterId).getD {}
  let stats := { stats with pitches := stats.pitches + 1 }
  let stats := if isSwing pitch then { stats with swings := stats.swings + 1 } else stats
  aset store batterId stats

/-- `getBatterAggression` (pollGame.js lines 1328–1332). -/
def getBatterAggression (store : AList Nat AggressionRec) (batterId : Nat) : Option Rat :=
  match alookup store batterId with
  | none => none
  | some stats =>
    if stats.pitches = 0 then none
    else some ((stats.swings : Rat) / stats.pitches)

/-- The six per-family counters of the batter-vs-pitch model. -/
structure FamStats where
  seen : Nat := 0
  swings : Nat := 0
  whiffs : Nat := 0
  inPlay : Nat := 0
  hits : Nat := 0
  hardHit : Nat := 0
deriving DecidableEq, Repr

/-- `batterVsPitchStats[bid]`: one `FamStats` per family (the
`ensureBatterFamily` initializer always creates all three). -/
structure BatterFamilies where
  fastball : FamStats := {}
  breaking : FamStats := {}
  change : FamStats := {}
deriving DecidableEq, Repr

def BatterFamilies.get (b : BatterFamilies) : Family → FamStats
  | .fastball => b.fastball
  | .breaking => b.breaking
  | .change => b.change

def BatterFamilies.set (b : BatterFamilies) : Family → FamStats → BatterFamilies
  | .fastball, s => { b with fastball := s }
  | .breaking, s => { b with breaking := s }
  | .change, s => { b with change := s }

/-- A `batterVsZoneStats[bid][zone]` record: the per-family buckets are
created lazily by `ensureBatterZoneFamily`, so each is optional. -/
structure ZoneFamilies where
  fastball : Option FamStats := none
  breaking : Option FamStats := none
  change : Option FamStats := none
deriving DecidableEq, Repr

def ZoneFamilies.get (z : ZoneFamilies) : Family → Option FamStats
  | .fastball => z.fastball
  | .breaking => z.breaking
  | .change => z.change

def ZoneFamilies.set (z : ZoneFamilies) : Family → FamStats → ZoneFamilies
  | .fastball, s => { z with fastball := some s }
  | .breaking, s => { z with breaking := some s }
  | .change, s => { z with change := some s }

abbrev ZoneStore := AList Nat (AList String ZoneFamilies)

/-- `getBatterZoneEV` (pollGame.js lines 625–634): gated on at least 3
observations in the (batter, zone, family) bucket. -/
def getBatterZoneEV (store : ZoneStore) (batterId : Nat) (zone : String)
    (family : Family) : Option Rat :=
  match (alookup store batterId).bind
      (fun zones => (alookup zones zone).bind (fun zf => zf.get family)) with
  | none => none
  | some z =>
    if z.seen < 3 then none
    else
      let whiffRate : Rat := if z.swings > 0 then (z.whiffs : Rat) / z.swings else 0
      let hitRate : Rat := if z.inPlay > 0 then (z.hits : Rat) / z.inPlay else 0
      let hhRate : Rat := if z.inPlay > 0 then (z.hardHit : Rat) / z.inPlay else 0
      some (0.6 * whiffRate + 0.25 * (1 - hitRate) + 0.15 * (1 - hhRate))

/-- `pitcherCommandStats[pid]` (pollGame.js lines 642–651). -/
structure CommandStats where
  pitches : Nat := 0
  missesHigh : Nat := 0
  missesLow : Nat := 0
  missesArm : Nat := 0
  missesGlove : Nat := 0
  velos : List Rat := []
deriving DecidableEq, Repr

/-- The velocity-window block of `updatePitcherCommand`
(pollGame.js lines 654–658): append to a rolling 8-sample window. -/
def cmdPushVelo (pitch : PitchEvent) (cs : CommandStats) : CommandStats :=
  let v := (pitch.pitchData.bind (·.startSpeed)) <|> (pitch.details.bind (·.startSpeed))
  match v with
  | some vv =>
    let velos := cs.velos ++ [vv]
    { cs with velos := if velos.length > 8 then velos.drop 1 else velos }
  | none => cs

/-- The miss-counter block of `updatePitcherCommand`
(pollGame.js lines 660–667). -/
def cmdRecordMisses (location : Option Loc) (cs : CommandStats) : CommandStats :=
  match location with
  | some loc =>
    if loc.hasLocation then
      let px := loc.px.getD 0
      let pz := loc.pz.getD 0
      let szTop := loc.szTop.getD 0
      let szBot := loc.szBot.getD 0
      let margin : Rat := 0.1
      let cs := if pz > szTop + margin then { cs with missesHigh := cs.missesHigh + 1 } else cs
      let cs := if pz < szBot - margin then { cs with missesLow := cs.missesLow + 1 } else cs
      let cs := if px > 1.7 then { cs with missesArm := cs.missesArm + 1 } else cs
      let cs := if px < -1.7 then { cs with missesGlove := cs.missesGlove + 1 } else cs
      cs
    else cs
  | none => cs

/-- `updatePitcherCommand` (pollGame.js lines 640–670): appends to the
8-sample velocity window and increments the miss counters using the
resolved location.  A null coordinate coerces to 0 in the JS comparisons,
which `Option.getD 0` reproduces. -/
def updatePitcherCommand (play : Play) (pitch : PitchEvent) (location : Option Loc)
    (store : AList Nat CommandStats) : AList Nat CommandStats :=
  let pid := play.matchup.pitcher.id
  let cs := (alookup store pid).getD {}
  let cs := cmdPushVelo pitch cs
  let cs := cmdRecordMisses location cs
  aset store pid { cs with pitches := cs.pitches + 1 }

/-- `getPitcherWildness` (pollGame.js lines 672–678): total misses over
total pitches, 0 below 10 pitches. -/
def getPitcherWildness (store : AList Nat CommandStats) (pid : Nat) : Rat :=
  match alookup store pid with
  | none => 0
  | some cs =>
    if cs.pitches < 10 then 0
    else ((cs.missesHigh + cs.missesLow + cs.missesArm + cs.missesGlove : Nat) : Rat) / cs.pitches

/-- `getPitcherVeloTrend` (pollGame.js lines 680–689). -/
def getPitcherVeloTrend (store : AList Nat CommandStats) (pid : Nat) : Rat :=
  match alookup store pid with
  | none => 0
  | some cs =>
    if cs.velos.length < 4 then 0
    else
      let n := cs.velos.length
      let recentAvg := (cs.velos.getD (n - 1) 0 + cs.velos.getD (n - 2) 0) / 2
      let earlyAvg := (cs.velos.getD 0 0 + cs.velos.getD 1 0) / 2
      recentAvg - earlyAvg

/-- `updateBatterVsPitchStats` (pollGame.js lines 1379–1444): updates the
family-level bucket and, when a zone is known, the (zone, family) bucket;
hit and hard-hit counters move only on the final pitch of the at-bat. -/
def updateBatterVsPitchStats (play : Play) (pitch : PitchEvent) (bucket : Option Family)
    (isLastPitch : Bool) (zoneForThisPitch : Option String)
    (bvp : AList Nat BatterFamilies) (bvz : ZoneStore) :
    AList Nat BatterFamilies × ZoneStore :=
  match bucket with
  | none => (bvp, bvz)
  | some bucket =>
    let batterId := play.matchup.batter.id
    let fams := (alookup bvp batterId).getD {}
    let stats := fams.get bucket
    let stats := { stats with seen := stats.seen + 1 }
    let desc := strLower (((pitch.details.bind (·.description))).getD "")
    let swung := isSwing pitch
    let stats := if swung then { stats with swings := stats.swings + 1 } else stats
    let swingingStrike :=
      swung && containsSub desc "swinging" && !containsSub desc "foul" &&
        !containsSub desc "in play"
    let stats := if swingingStrike then { stats with whiffs := stats.whiffs + 1 } else stats
    let inPlay := (pitch.details.map (·.isInPlay)).getD false || containsSub desc "in play"
    let stats := if inPlay then { stats with inPlay := stats.inPlay + 1 } else stats
    let eventType := strLower (((play.result.bind (·.eventType))).getD "")
    let isHit :=
      isLastPitch &&
        (containsSub eventType "single" || containsSub eventType "double" ||
          containsSub eventType "triple" || containsSub eventType "home_run" ||
          containsSub eventType "home run")
    let stats := if isHit then { stats with hits := stats.hits + 1 } else stats
    let hardHit :=
      isLastPitch &&
        (match pitch.hitData.bind (·.launchSpeed) with
         | some ls => decide (ls ≥ 95)
         | none => false)
    let stats := if hardHit then { stats with hardHit := stats.hardHit + 1 } else stats
    let bvp := aset bvp batterId (fams.set bucket stats)
    match zoneForThisPitch with
    | none => (bvp, bvz)
    | some zone =>
      let zones := (alookup bvz batterId).getD []
      let zf := (alookup zones zone).getD {}
      let z := (zf.get bucket).getD {}
      let z := { z with seen := z.seen + 1 }
      let z := if swung then { z with swings := z.swings + 1 } else z
      let z := if swingingStrike then { z with whiffs := z.whiffs + 1 } else z
      let z := if inPlay then { z with inPlay := z.inPlay + 1 } else z
      let z := if isHit then { z with hits := z.hits + 1 } else z
      let z := if hardHit then { z with hardHit := z.hardHit + 1 } else z
      (bvp, aset bvz batterId (aset zones zone (zf.set bucket z)))

/-- The weighted vulnerability score of one family bucket
(pollGame.js lines 1471–1477), also used for the zone buckets. -/
def famScore (s : FamStats) : Rat :=
  let whiffRate : Rat := if s.swings > 0 then (s.whiffs : Rat) / s.swings else 0
  let hitRate : Rat := if s.inPlay > 0 then (s.hits : Rat) / s.inPlay else 0
  let hardHitRate : Rat := if s.inPlay > 0 then (s.hardHit : Rat) / s.inPlay else 0
  0.6 * whiffRate + 0.25 * (1 - hitRate) + 0.15 * (1 - hardHitRate)

/-- The per-family vulnerability scores reported by
`getBatterVsPitchProfile`: computed for every family, with no observation
threshold. -/
structure VulnScores where
  fastball : Rat
  breaking : Rat
  change : Rat
deriving DecidableEq, Repr

def VulnScores.get (v : VulnScores) : Family → Rat
  | .fastball => v.fastball
  | .breaking => v.breaking
  | .change => v.change

structure BatterProfile where
  stats : BatterFamilies
  vuln : VulnScores
  topWeakFamily : Option Family
deriving DecidableEq, Repr

/-- One iteration of the `for (const fam of families)` loop in
`getBatterVsPitchProfile`: the running best is replaced only by a family
with at least 3 observations and a strictly higher score
(`bestScore` starts at negative infinity, modelled by `none`). -/
def vulnStep (fam : Family) (s : FamStats) (acc : Option Family × Option Rat) :
    Option Family × Option Rat :=
  let score := famScore s
  let better := match acc.2 with
    | none => true
    | some b => decide (score > b)
  if s.seen ≥ 3 && better then (some fam, some score) else acc

/-- `getBatterVsPitchProfile` (pollGame.js lines 1446–1497). -/
def getBatterVsPitchProfile (store : AList Nat BatterFamilies) (batterId : Nat) :
    Option BatterProfile :=
  match alookup store batterId with
  | none => none
  | some raw =>
    let acc := vulnStep .fastball raw.fastball (none, none)
    let acc := vulnStep .breaking raw.breaking acc
    let acc := vulnStep .change raw.change acc
    some { stats := raw,
           vuln := ⟨famScore raw.fastball, famScore raw.breaking, famScore raw.change⟩,
           topWeakFamily := acc.1 }

/-- `outsFromPlay` (pollGame.js lines 1251–1267). -/
def outsFromPlay (play : Play) : Nat :=
  let event := strLower (((play.result.bind (·.event))).getD "")
  if containsSub event "triple play" then 3
  else if containsSub event "double play" then 2
  else if containsSub event "groundout" then 1
  else if containsSub event "forceout" then 1
  else if containsSub event "fielder's choice out" then 1
  else if containsSub event "fielders choice out" then 1
  else if containsSub event "flyout" then 1
  else if containsSub event "lineout" then 1
  else if containsSub event "pop out" then 1
  else if containsSub event "strikeout" then 1
  else 0

/-! ## Prediction context -/

structure RunnersOn where
  first : Bool := false
  second : Bool := false
  third : Bool := false
deriving DecidableEq, Repr

/-- The per-decision-point context assembled by `buildReplayPitchContext`
(pollGame.js lines 1630–1664). -/
structure Ctx where
  inning : Nat := 1
  topBottom : String := "Top"
  balls : Nat := 0
  strikes : Nat := 0
  outs : Nat := 0
  runnersOn : RunnersOn := {}
  lastPitchType : Option String := none
  lastPitchDescription : String := ""
  lastTwoPitchTypes : List String := []
  lastPitchLocationZone : Option String := none
  lastPitchLocationLabel : Option String := none
  pitcherThrows : String := "R"
  batterBats : String := "R"
  location : Loc := {}
  pitcherGameMix : Option Mix := none
  batterAggression : Option Rat := none
  pitcherArsenalMix : Option Mix := none
  batterVsPitch : Option BatterProfile := none
  pitcherId : Nat := 0
  batterId : Nat := 0
  tunnelInfo : Option TunnelInfo := none
deriving DecidableEq, Repr

/-! ## Sequencing influence matrix (`applySequencingAdjustments`) -/

/-- Section 1 of `applySequencingAdjustments` (count-based sequencing,
pollGame.js lines 707–730). -/
def seqCountAdj (m : Mix) (ctx : Ctx) : Mix :=
  let m :=
    if (ctx.balls = 0 ∧ ctx.strikes = 2) ∨ (ctx.balls = 1 ∧ ctx.strikes = 2) then
      { m with breaking := m.breaking + 0.12, change := m.change + 0.05,
               fastball := m.fastball - 0.1 }
    else m
  let m :=
    if (ctx.balls = 2 ∧ ctx.strikes = 0) ∨ (ctx.balls = 3 ∧ ctx.strikes = 1) then
      { m with fastball := m.fastball + 0.1, breaking := m.breaking - 0.06,
               change := m.change - 0.04 }
    else m
  match ctx.pitcherArsenalMix with
  | some a =>
    if ctx.balls = 3 ∧ ctx.strikes = 2 then
      { m with fastball := m.fastball + a.fastball * 0.1,
               breaking := m.breaking + a.breaking * 0.05,
               change := m.change + a.change * 0.05 }
    else m
  | none => m

/-- Section 2 (last-pitch sequences, pollGame.js lines 732–755). -/
def seqLastPitchAdj (m : Mix) (last : Option Family) : Mix :=
  let m :=
    if last = some .fastball then
      { m with breaking := m.breaking + 0.06, change := m.change + 0.02,
               fastball := m.fastball - 0.06 }
    else m
  let m :=
    if last = some .breaking then
      { m with fastball := m.fastball + 0.04, change := m.change + 0.03,
               breaking := m.breaking - 0.04 }
    else m
  if last = some .change then
    { m with breaking := m.breaking + 0.04, fastball := m.fastball + 0.02,
             change := m.change - 0.06 }
  else m

/-- Section 3 (swing-result sequencing, pollGame.js lines 757–788). -/
def seqSwingResultAdj (m : Mix) (last : Option Family) (desc : String) : Mix :=
  let m :=
    if containsSub desc "swinging strike" && !containsSub desc "foul" then
      match last with
      | some .fastball => { m with fastball := m.fastball + 0.1 }
      | some .breaking => { m with breaking := m.breaking + 0.1 }
      | some .change => { m with change := m.change + 0.1 }
      | none => m
    else m
  let m :=
    if containsSub desc "foul" then
      if last = some .fastball then
        { m with breaking := m.breaking + 0.05, change := m.change + 0.03 }
      else { m with fastball := m.fastball + 0.07 }
    else m
  let m :=
    if containsSub desc "ball" then
      { m with fastball := m.fastball + 0.06, breaking := m.breaking - 0.03,
               change := m.change - 0.03 }
    else m
  if containsSub desc "called strike" then { m with breaking := m.breaking + 0.04 }
  else m

/-- Section 4 (two-pitch pattern logic, pollGame.js lines 790–803). -/
def seqTwoPitchAdj (m : Mix) (ctx : Ctx) : Mix :=
  let seq := ctx.lastTwoPitchTypes.map (fun c => mapPitchCodeToBucket (some c))
  match seq with
  | [a, b] =>
    if a = b then
      match a with
      | some .fastball => { m with breaking := m.breaking + 0.1 }
      | some .breaking => { m with fastball := m.fastball + 0.08 }
      | some .change => { m with breaking := m.breaking + 0.07 }
      | none => m
    else m
  | _ => m

/-- Section 5 (tunnel influence, pollGame.js lines 805–815). -/
def seqTunnelAdj (m : Mix) (ctx : Ctx) (last : Option Family) : Mix :=
  match ctx.tunnelInfo with
  | some _ =>
    if last = some .fastball then
      { m with breaking := m.breaking + 0.05, change := m.change + 0.03 }
    else m
  | none => m

/-- Section 6 (command / fatigue influence, pollGame.js lines 817–835). -/
def seqCommandAdj (pcs : AList Nat CommandStats) (m : Mix) (ctx : Ctx) : Mix :=
  let wildness := getPitcherWildness pcs ctx.pitcherId
  let m :=
    if wildness > 0.3 then
      { m with fastball := m.fastball + 0.08, breaking := m.breaking - 0.05,
               change := m.change - 0.03 }
    else m
  let veloTrend := getPitcherVeloTrend pcs ctx.pitcherId
  if veloTrend < -1.0 then
    { m with fastball := m.fastball - 0.04, change := m.change + 0.03,
             breaking := m.breaking + 0.01 }
  else m

/-- `applySequencingAdjustments` (pollGame.js lines 696–838): the six
numbered sections applied in order on a copy of the mix, followed by a
`normalize`. -/
def applySequencingAdjustments (pcs : AList Nat CommandStats) (mix : Mix)
    (ctx? : Option Ctx) : Mix :=
  match ctx? with
  | none => mix
  | some ctx =>
    let last := mapPitchCodeToBucket ctx.lastPitchType
    let desc := strLower ctx.lastPitchDescription
    let m := seqCountAdj mix ctx
    let m := seqLastPitchAdj m last
    let m := seqSwingResultAdj m last desc
    let m := seqTwoPitchAdj m ctx
    let m := seqTunnelAdj m ctx last
    let m := seqCommandAdj pcs m ctx
    normalize m

/-- `applyLocationSequencing` (pollGame.js lines 844–881): zone-keyed
deltas followed by `normalize`; returns the mix untouched (and NOT
normalized) when the zone or the last-pitch family is absent. -/
def applyLocationSequencing (mix : Mix) (ctx? : Option Ctx) : Mix :=
  match ctx? with
  | none => mix
  | some ctx =>
    let last := mapPitchCodeToBucket ctx.lastPitchType
    match ctx.lastPitchLocationZone, last with
    | some zone, some lastFam =>
      if zone = "" then mix
      else
        let m := mix
        let m :=
          if lastFam = .fastball ∧ strStartsWith zone "HIGH" then
            { m with breaking := m.breaking + 0.08, change := m.change + 0.04,
                     fastball := m.fastball - 0.08 }
          else m
        let m :=
          if lastFam = .breaking ∧ zone = "LOW_GLOVE" then
            { m with fastball := m.fastball + 0.1, breaking := m.breaking - 0.05 }
          else m
        let m :=
          if lastFam = .change ∧ zone = "LOW_ARM" then
            { m with breaking := m.breaking + 0.08, fastball := m.fastball + 0.02,
                     change := m.change - 0.06 }
          else m
        let m :=
          if lastFam = .fastball ∧ zone = "MID_MIDDLE" then
            { m with breaking := m.breaking + 0.08, change := m.change + 0.04,
                     fastball := m.fastball - 0.1 }
          else m
        normalize m
    | _, _ => mix

/-! ## Optimal pitch recommender -/

/-- `getCountFactor` (pollGame.js lines 1503–1528). -/
def getCountFactor (family : Family) (balls strikes : Nat) : Rat :=
  if strikes ≥ 2 ∧ balls ≤ 1 then
    match family with
    | .breaking => 1.25
    | .change => 1.15
    | .fastball => 0.8
  else if balls ≥ 2 ∧ strikes ≤ 1 then
    match family with
    | .fastball => 1.2
    | .breaking => 0.9
    | .change => 0.9
  else if balls = 3 ∧ strikes = 2 then
    match family with
    | .fastball => 1.05
    | .breaking => 0.95
    | .change => 1.0
  else 1.0

/-- The per-family score loop body of `recommendOptimalPitch`
(pollGame.js lines 1546–1569): arsenal/league base, 40/60 vulnerability
blend, count-leverage factor, 50/50 zone-EV blend. -/
def optimalScore (zs : ZoneStore) (ctx : Ctx) (base : Mix)
    (vuln : Option VulnScores) (fam : Family) : Rat :=
  let score := base.get fam
  let score :=
    match vuln with
    | some v => 0.4 * score + 0.6 * v.get fam
    | none => score
  let score := score * getCountFactor fam ctx.balls ctx.strikes
  match ctx.lastPitchLocationZone with
  | some zone =>
    if zone ≠ "" ∧ ctx.batterId ≠ 0 then
      match getBatterZoneEV zs ctx.batterId zone fam with
      | some zoneEV => 0.5 * score + 0.5 * zoneEV
      | none => score
    else score
  | none => score

structure OptResult where
  mix : Mix
  best : Family
deriving DecidableEq, Repr

/-- The argmax loop at the end of `recommendOptimalPitch`
(pollGame.js lines 1573–1581): first family wins ties. -/
def bestFamilyOf (mix : Mix) : Family :=
  let best := Family.fastball
  let bestVal := mix.fastball
  let acc := if mix.breaking > bestVal then (Family.breaking, mix.breaking) else (best, bestVal)
  if mix.change > acc.2 then Family.change else acc.1

/-- `recommendOptimalPitch` (pollGame.js lines 1530–1584).  NOTE: the JS
function dereferences `ctx.pitcherArsenalMix` without a null guard, so it
can only be modelled for a present context; see
`recommendOptimalPitchChecked` for the null behaviour. -/
def recommendOptimalPitch (zs : ZoneStore) (ctx : Ctx) : OptResult :=
  let base := (ctx.pitcherArsenalMix <|> leaguePitchMixByCount ctx.balls ctx.strikes).getD
    ⟨0.6, 0.25, 0.15⟩
  let base := normalize base
  let vuln := ctx.batterVsPitch.map (·.vuln)
  let scores : Mix :=
    ⟨optimalScore zs ctx base vuln .fastball,
     optimalScore zs ctx base vuln .breaking,
     optimalScore zs ctx base vuln .change⟩
  let mix := normalize scores
  { mix := mix, best := bestFamilyOf mix }

/-- `recommendOptimalPitch` as invoked on a possibly-null context
(pollGame.js lines 1868 and 2025 pass the nullable result of context
assembly).  `none` models the TypeError thrown by
`ctx.pitcherArsenalMix` when `ctx` is null: the JS function has no guard
and crashes instead of returning a default distribution. -/
def recommendOptimalPitchChecked (zs : ZoneStore) (ctx? : Option Ctx) : Option OptResult :=
  match ctx? with
  | none => none
  | some ctx => some (recommendOptimalPitch zs ctx)

/-- The zone-effectiveness read of `recommendOptimalPitch` written as an
explicit state-monad access, to make the absence of writes checkable. -/
def getBatterZoneEVS (batterId : Nat) (zone : String) (family : Family) :
    StateM ZoneStore (Option Rat) := do
  let zs ← get
  pure (getBatterZoneEV zs batterId zone family)

/-- The per-family score loop body with its store access in the state
monad. -/
def optimalScoreS (ctx : Ctx) (base : Mix) (vuln : Option VulnScores)
    (fam : Family) : StateM ZoneStore Rat := do
  let score := base.get fam
  let score :=
    match vuln with
    | some v => 0.4 * score + 0.6 * v.get fam
    | none => score
  let score := score * getCountFactor fam ctx.balls ctx.strikes
  match ctx.lastPitchLocationZone with
  | some zone =>
    if zone ≠ "" ∧ ctx.batterId ≠ 0 then do
      let zoneEV ← getBatterZoneEVS ctx.batterId zone fam
      match zoneEV with
      | some z => pure (0.5 * score + 0.5 * z)
      | none => pure score
    else pure score
  | none => pure score

/-- `recommendOptimalPitch` with every access to the shared
`batterVsZoneStats` store made explicit in the state monad
(the source performs reads only). -/
def recommendOptimalPitchS (ctx : Ctx) : StateM ZoneStore OptResult := do
  let base := (ctx.pitcherArsenalMix <|> leaguePitchMixByCount ctx.balls ctx.strikes).getD
    ⟨0.6, 0.25, 0.15⟩
  let base := normalize base
  let vuln := ctx.batterVsPitch.map (·.vuln)
  let sF ← optimalScoreS ctx base vuln .fastball
  let sB ← optimalScoreS ctx base vuln .breaking
  let sC ← optimalScoreS ctx base vuln .change
  let mix := normalize ⟨sF, sB, sC⟩
  pure { mix := mix, best := bestFamilyOf mix }

/-! ## Prediction mixer (`predictPitchType`) -/

/-- Stage 1 of `predictPitchType`: league baseline by count
(pollGame.js lines 1679–1688). -/
def predictBase (ctx : Ctx) : Mix :=
  (leaguePitchMixByCount ctx.balls ctx.strikes).getD ⟨0.60, 0.25, 0.15⟩

/-- Stage 2: 50/50 blend with the CSV arsenal baseline
(pollGame.js lines 1690–1706). -/
def predictArsenalBlend (mix : Mix) (ctx : Ctx) : Mix :=
  match ctx.pitcherArsenalMix with
  | some a =>
    ⟨0.5 * mix.fastball + 0.5 * a.fastball,
     0.5 * mix.breaking + 0.5 * a.breaking,
     0.5 * mix.change + 0.5 * a.change⟩
  | none => mix

/-- Stage 3: handedness effects (pollGame.js lines 1708–1720). -/
def predictHandedness (mix : Mix) (ctx : Ctx) : Mix :=
  let mix :=
    if ctx.pitcherThrows = "R" ∧ ctx.batterBats = "L" then
      { mix with change := mix.change + 0.05, fastball := mix.fastball - 0.03,
                 breaking := mix.breaking - 0.02 }
    else mix
  if ctx.pitcherThrows = "L" ∧ ctx.batterBats = "R" then
    { mix with breaking := mix.breaking + 0.05, fastball := mix.fastball - 0.03,
               change := mix.change - 0.02 }
  else mix

/-- Stage 4: runners-on shift (pollGame.js lines 1722–1728). -/
def predictRunners (mix : Mix) (ctx : Ctx) : Mix :=
  if ctx.runnersOn.first || ctx.runnersOn.second || ctx.runnersOn.third then
    { mix with breaking := mix.breaking + 0.03, fastball := mix.fastball - 0.03 }
  else mix

/-- Stage 7: the multiplicative batter-weakness tilt
(pollGame.js lines 1746–1757); deliberately not renormalized here. -/
def predictVulnTilt (mix : Mix) (ctx : Ctx) : Mix :=
  match ctx.batterVsPitch with
  | some p =>
    ⟨mix.fastball * (1 + p.vuln.fastball * 0.35),
     mix.breaking * (1 + p.vuln.breaking * 0.35),
     mix.change * (1 + p.vuln.change * 0.35)⟩
  | none => mix

/-- Stage 8: tunnel continuation bias (pollGame.js lines 1759–1780). -/
def predictTunnelAdj (mix : Mix) (ctx : Ctx) : Mix :=
  match ctx.tunnelInfo with
  | some _ =>
    let last := mapPitchCodeToBucket ctx.lastPitchType
    let mix := if last = some .fastball then { mix with breaking := mix.breaking + 0.05 } else mix
    let mix := if last = some .breaking then { mix with fastball := mix.fastball + 0.05 } else mix
    if last = some .change then
      { mix with change := mix.change + 0.04, breaking := mix.breaking + 0.02 }
    else mix
  | none => mix

/-- Stage 9: 80/20 blend with the pitcher in-game mix
(pollGame.js lines 1782–1798). -/
def predictGameMixBlend (mix : Mix) (ctx : Ctx) : Mix :=
  match ctx.pitcherGameMix with
  | some g =>
    ⟨0.8 * mix.fastball + 0.2 * g.fastball,
     0.8 * mix.breaking + 0.2 * g.breaking,
     0.8 * mix.change + 0.2 * g.change⟩
  | none => mix

/-- `predictPitchType` (pollGame.js lines 1674–1802).  A null context
immediately yields the uniform-ish default.  Otherwise the stages run in
source order: league baseline by count, 50/50 arsenal blend, handedness
deltas, runners-on shift, normalize, sequencing adjustments, location
sequencing, normalize, multiplicative batter-weakness tilt, tunnel
continuation deltas, 80/20 in-game-mix blend, final normalize. -/
def predictPitchType (pcs : AList Nat CommandStats) (ctx? : Option Ctx) : Mix :=
  match ctx? with
  | none => ⟨0.33, 0.33, 0.34⟩
  | some ctx =>
    let mix := predictBase ctx
    let mix := predictArsenalBlend mix ctx
    let mix := predictHandedness mix ctx
    let mix := predictRunners mix ctx
    let mix := normalize mix
    let mix := applySequencingAdjustments pcs mix (some ctx)
    let mix := applyLocationSequencing mix (some ctx)
    let mix := normalize mix
    let mix := predictVulnTilt mix ctx
    let mix := predictTunnelAdj mix ctx
    let mix := predictGameMixBlend mix ctx
    normalize mix

/-! ## The replay loop -/

/-- The mutable module-level state of pollGame.js, as far as the replay
pipeline reads or writes it.  (`pitcherArsenalById` is the pre-parsed CSV
arsenal mapping; presentation-only state such as `lastInningPrinted` is
omitted.) -/
structure SimState where
  replayModeActive : Bool := false
  pitchIndexMap : List (Nat × Nat) := []
  pitchPointer : Nat := 0
  lastCtx : Option TunnelCtx := none
  lastPitcherId : Option Nat := none
  lastBatterId : Option Nat := none
  pitchSequence : List String := []
  simulatedOuts : Nat := 0
  simInning : Option Nat := none
  simHalf : Option String := none
  pitchCoordCache : Cache := []
  pitcherGameStats : AList Nat PitcherGameRec := []
  batterAggressionStats : AList Nat AggressionRec := []
  pitcherArsenalById : AList Nat Mix := []
  batterVsPitchStats : AList Nat BatterFamilies := []
  batterVsZoneStats : ZoneStore := []
  pitcherCommandStats : AList Nat CommandStats := []
deriving DecidableEq, Repr

/-- `buildPitchIndexMap` (pollGame.js lines 1235–1246): the (play index,
event index) pairs of all pitch events, in order. -/
def buildPitchIndexMap (g : Game) : List (Nat × Nat) :=
  g.allPlays.enum.flatMap fun p =>
    p.2.playEvents.enum.filterMap fun e => if e.2.isPitch then some (p.1, e.1) else none

/-- `runnersOn` assembly: `play.runners?.some(r => r.startingBase === b) ?? false`. -/
def runnersHave (play : Play) (base : Nat) : Bool :=
  (play.runners.map (fun rs => rs.any (fun r => r.startingBase == some base))).getD false

/-- `buildReplayPitchContext` (pollGame.js lines 1589–1668), with the
mutations of `pitchCoordCache` (via the resolver) and `lastCtx` made
explicit on the state.  The `try/catch` returns `none` with the state
unchanged when an index is out of range (the JS exception is thrown
before `lastCtx` is assigned, and the resolver writes nothing for an
invalid pitch index). -/
def buildReplayPitchContext (g : Game) (playIdx pitchIdx outsBefore : Nat)
    (s : SimState) : Option Ctx × SimState :=
  match g.allPlays[playIdx]? with
  | none => (none, s)
  | some play =>
    match play.playEvents[pitchIdx]? with
    | none => (none, s)
    | some pitch =>
      match getPitchCoordinates s.pitchCoordCache g playIdx pitchIdx with
      | none => (none, s)
      | some (location, cache) =>
        let pitcherId := play.matchup.pitcher.id
        let batterId := play.matchup.batter.id
        let zone :=
          if location.hasLocation ∧ location.px.isSome ∧ location.pz.isSome then
            classifyLocation location.px location.pz location.szTop location.szBot
          else none
        let tempCtx : TunnelCtx :=
          { lastPitchType := (pitch.details.bind (·.type)).bind (·.code),
            location := some location }
        let tunnelInfo := detectTunnel s.lastCtx (some tempCtx)
        (some { inning := play.about.inning,
                topBottom := if play.about.halfInning = "top" then "Top" else "Bottom",
                balls := ((pitch.count.bind (·.balls))).getD 0,
                strikes := ((pitch.count.bind (·.strikes))).getD 0,
                outs := outsBefore,
                runnersOn := { first := runnersHave play 1, second := runnersHave play 2,
                               third := runnersHave play 3 },
                lastPitchType := (pitch.details.bind (·.type)).bind (·.code),
                lastPitchDescription := ((pitch.details.bind (·.description))).getD "",
                lastTwoPitchTypes := s.pitchSequence.drop (s.pitchSequence.length - 2),
                lastPitchLocationZone := zone,
                lastPitchLocationLabel := prettyLocationLabel zone,
                pitcherThrows := ((play.matchup.pitchHand.bind (·.code))).getD "R",
                batterBats := ((play.matchup.batSide.bind (·.code))).getD "R",
                location := location,
                pitcherGameMix := getPitcherGameMix s.pitcherGameStats pitcherId,
                batterAggression := getBatterAggression s.batterAggressionStats batterId,
                pitcherArsenalMix := alookup s.pitcherArsenalById pitcherId,
                batterVsPitch := getBatterVsPitchProfile s.batterVsPitchStats batterId,
                pitcherId := pitcherId,
                batterId := batterId,
                tunnelInfo := tunnelInfo },
         { s with pitchCoordCache := cache, lastCtx := some tempCtx })

/-- The first-run initialization block of `handleReplayMode`
(pollGame.js lines 1809–1824): builds the pitch index map and resets the
cache, the profile stores and the sequence memory (the CSV arsenal and
the pitch pointer are not reset). -/
def stepInit (g : Game) (s : SimState) : SimState :=
  if s.replayModeActive then s
  else
    { s with replayModeActive := true,
             pitchIndexMap := buildPitchIndexMap g,
             simulatedOuts := 0, simInning := none, simHalf := none,
             pitchCoordCache := [], pitcherGameStats := [],
             batterAggressionStats := [], batterVsPitchStats := [],
             batterVsZoneStats := [], pitcherCommandStats := [],
             pitchSequence := [], lastCtx := none }

/-- The half-inning change reset (pollGame.js lines 1838–1842). -/
def stepInningHalfReset (play : Play) (s : SimState) : SimState :=
  if s.simInning ≠ some play.about.inning ∨ s.simHalf ≠ some play.about.halfInning then
    { s with simInning := some play.about.inning, simHalf := some play.about.halfInning,
             simulatedOuts := 0 }
  else s

/-- The `analyzeSequence` push (pollGame.js lines 1856–1859 and 1179–1180):
a truthy pitch code is appended to the sequence memory BEFORE the context
is assembled. -/
def stepPushSequence (code : Option String) (s : SimState) : SimState :=
  match code with
  | some c => if c ≠ "" then { s with pitchSequence := s.pitchSequence ++ [c] } else s
  | none => s

/-- `detectChanges` (pollGame.js lines 1201–1217): a pitcher change clears
the sequence memory and the tunnel lookback. -/
def stepDetectChanges (play : Play) (s : SimState) : SimState :=
  let s :=
    if s.lastPitcherId ≠ some play.matchup.pitcher.id then
      { s with lastPitcherId := some play.matchup.pitcher.id,
               pitchSequence := [], lastCtx := none }
    else s
  if s.lastBatterId ≠ some play.matchup.batter.id then
    { s with lastBatterId := some play.matchup.batter.id }
  else s

/-- The outs update on the last pitch of a play
(pollGame.js lines 1947–1953). -/
def stepOutsUpdate (play : Play) (isLastPitch : Bool) (s : SimState) : SimState :=
  if isLastPitch then
    let newOuts := s.simulatedOuts + outsFromPlay play
    { s with simulatedOuts := if newOuts ≥ 3 then 0 else newOuts }
  else s

/-- The last-pitch-of-the-play scan (pollGame.js lines 1846–1853): true
when no later event of the play is a pitch. -/
def replayIsLastPitch (play : Play) (pitchIdx : Nat) : Bool :=
  (play.playEvents.drop (pitchIdx + 1)).all (fun e => !e.isPitch)

/-- The zone computed for the observed pitch before the batter-vs-zone
update (pollGame.js lines 1926–1936). -/
def replayZoneForPitch (ctx? : Option Ctx) : Option String :=
  match ctx? with
  | some ctx =>
    if ctx.location.hasLocation then
      classifyLocation ctx.location.px ctx.location.pz ctx.location.szTop ctx.location.szBot
    else none
  | none => none

/-- The state visible to context assembly for a pitch: the half-inning
reset and the sequence push have run, nothing else. -/
def replayPreState (play : Play) (pitch : PitchEvent) (s : SimState) : SimState :=
  stepPushSequence ((pitch.details.bind (·.type)).bind (·.code)) (stepInningHalfReset play s)

/-- The outputs produced for one replayed pitch (the data behind the
console presentation and the API response). -/
structure StepOut where
  ctx : Ctx
  likely : Mix
  optimal : OptResult
deriving DecidableEq, Repr

/-- `handleReplayMode` (pollGame.js lines 1808–1956), one tick.  The outer
`Option` is `none` when the JS function would throw: a stale index map
pointing outside the game, or a null context reaching
`recommendOptimalPitch` (which has no null guard).  The inner
`Option StepOut` is `none` when all pitches have been replayed.  Statement
order follows the source: init block, pointer guard, half-inning reset,
last-pitch scan, sequence push, context assembly, prediction, optimal
recommendation, change detection, then the four profile-store updates,
the outs update and the pointer advance. -/
def handleReplayMode (g : Game) (s0 : SimState) : Option (Option StepOut × SimState) :=
  let s := stepInit g s0
  match s.pitchIndexMap[s.pitchPointer]? with
  | none => some (none, s)
  | some (playIdx, pitchIdx) =>
    match g.allPlays[playIdx]? with
    | none => none
    | some play =>
      let s := stepInningHalfReset play s
      let outsBefore := s.simulatedOuts
      let isLastPitch := replayIsLastPitch play pitchIdx
      match play.playEvents[pitchIdx]? with
      | none => none
      | some pitch =>
        let code := (pitch.details.bind (·.type)).bind (·.code)
        let s := stepPushSequence code s
        let built := buildReplayPitchContext g playIdx pitchIdx outsBefore s
        let s := built.2
        let likelyMix := predictPitchType s.pitcherCommandStats built.1
        match built.1 with
        | none => none
        | some ctx =>
          let optimal := recommendOptimalPitch s.batterVsZoneStats ctx
          let s := stepDetectChanges play s
          let bucket := mapPitchCodeToBucket code
          let s := { s with pitcherGameStats := updatePitcherStats play pitch s.pitcherGameStats }
          let s := { s with batterAggressionStats := updateBatterStats play pitch s.batterAggressionStats }
          let s := { s with pitcherCommandStats :=
                       updatePitcherCommand play pitch (some ctx.location) s.pitcherCommandStats }
          let zoneForThisPitch := replayZoneForPitch (some ctx)
          let updated := updateBatterVsPitchStats play pitch bucket isLastPitch zoneForThisPitch
            s.batterVsPitchStats s.batterVsZoneStats
          let s := { s with batterVsPitchStats := updated.1, batterVsZoneStats := updated.2 }
          let s := stepOutsUpdate play isLastPitch s
          let s := { s with pitchPointer := s.pitchPointer + 1 }
          some (some { ctx := ctx, likely := likelyMix, optimal := optimal }, s)

/-- The core of the `/api/pitch-type` endpoint (pollGame.js lines
2008–2037): context assembly at the current pointer, then the prediction
mixer and the optimal recommender on the (possibly null) context.  The
result is `none` when the endpoint would throw — `recommendOptimalPitch`
on a null context. -/
def apiPitchTypeCore (g : Game) (playIdx pitchIdx : Nat) (s : SimState) :
    Option ((Option Ctx × Mix × OptResult) × SimState) :=
  let built := buildReplayPitchContext g playIdx pitchIdx s.simulatedOuts s
  let likely := predictPitchType built.2.pitcherCommandStats built.1
  match recommendOptimalPitchChecked built.2.batterVsZoneStats built.1 with
  | none => none
  | some optimal => some ((built.1, likely, optimal), built.2)

/-! ## Verification-side predicates -/

/-- A proper probability mix: non-negative entries summing to exactly 1
(the floating-point spec tolerance of 1e-6 is met by exactness). -/
def MixOK (m : Mix) : Prop :=
  0 ≤ m.fastball ∧ 0 ≤ m.breaking ∧ 0 ≤ m.change ∧ m.total = 1

/-- The context's arsenal baseline, when present, is a proper mix
(true of every arsenal produced by the CSV loader's `normalize`). -/
def CtxArsenalOK (ctx : Ctx) : Prop :=
  ∀ a, ctx.pitcherArsenalMix = some a → MixOK a

/-- The context's in-game mix, when present, is a proper mix
(true of every output of `getPitcherGameMix`). -/
def CtxGameMixOK (ctx : Ctx) : Prop :=
  ∀ g, ctx.pitcherGameMix = some g → MixOK g

/-- The context's vulnerability scores, when present, lie in [0, 1]
(true of `famScore` on any consistent stats bucket). -/
def CtxVulnOK (ctx : Ctx) : Prop :=
  ∀ p, ctx.batterVsPitch = some p →
    (0 ≤ p.vuln.fastball ∧ p.vuln.fastball ≤ 1) ∧
    (0 ≤ p.vuln.breaking ∧ p.vuln.breaking ≤ 1) ∧
    (0 ≤ p.vuln.change ∧ p.vuln.change ≤ 1)

/-- Internally consistent counters: no more whiffs than swings, no more
hits or hard-hit balls than balls in play. -/
def FamStatsSane (s : FamStats) : Prop :=
  s.whiffs ≤ s.swings ∧ s.hits ≤ s.inPlay ∧ s.hardHit ≤ s.inPlay

/-- Every bucket of the zone-effectiveness store is internally
consistent. -/
def ZoneStoreSane (zs : ZoneStore) : Prop :=
  ∀ bid zones, alookup zs bid = some zones →
    ∀ zone zf, alookup zones zone = some zf →
      ∀ fam st, zf.get fam = some st → FamStatsSane st

/-- Total number of recorded command misses. -/
def cmdMisses (cs : CommandStats) : Nat :=
  cs.missesHigh + cs.missesLow + cs.missesArm + cs.missesGlove

/-- The command-store invariant behind the wildness bound: at most two
misses per recorded pitch. -/
def CmdInv (cs : CommandStats) : Prop := cmdMisses cs ≤ 2 * cs.pitches

/-- One recorded input to `updatePitcherCommand`. -/
structure CmdInput where
  play : Play := {}
  pitch : PitchEvent := {}
  location : Option Loc := none
deriving DecidableEq, Repr

/-- A location whose strike-zone bounds are not inverted by more than the
2·margin slack (`szBot − 0.1 ≤ szTop + 0.1`); holds in particular for the
default 3.5/1.5 bounds and any non-inverted zone. -/
def CoherentLoc (loc? : Option Loc) : Prop :=
  ∀ l, loc? = some l → l.hasLocation = true → l.szBot.getD 0 ≤ l.szTop.getD 0 + 1/5

/-- Folding a list of recorded pitches through `updatePitcherCommand`. -/
def runCommandUpdates (store : AList Nat CommandStats) : List CmdInput → AList Nat CommandStats
  | [] => store
  | i :: rest => runCommandUpdates (updatePitcherCommand i.play i.pitch i.location store) rest

/-! ## Concrete fixtures used by counterexamples and witnesses -/

/-- A game with no plays at all. -/
def gEmpty : Game := { allPlays := [] }

/-- A reachable-shaped context: count 2–0, last pitch a changeup taken for
a ball, no profile data.  Drives the `change` share negative. -/
def ctxNeg : Ctx :=
  { balls := 2, strikes := 0, lastPitchType := some "CH",
    lastPitchDescription := "Ball" }

/-- Movement-only context A for tunnel boundary analysis (3 inches of
horizontal break). -/
def tcA : TunnelCtx := { location := some { isBreakData := true, hb := some 3, vb := some 0 } }

/-- Movement-only context B (no break): summed break diff against `tcA`
is exactly the 3.0 threshold. -/
def tcB : TunnelCtx := { location := some { isBreakData := true, hb := some 0, vb := some 0 } }

/-- A batter record with only 2 fastballs seen (below the 3-observation
threshold), one swing, one whiff. -/
def rawTwoSeen : BatterFamilies := { fastball := { seen := 2, swings := 1, whiffs := 1 } }

/-- A batted ball finishing a grounded-into-double-play at-bat. -/
def pitchDP : PitchEvent :=
  { isPitch := true,
    details := some { description := some "In play, out(s)", isInPlay := true } }

def playDP : Play :=
  { matchup := { batter := { id := 20 } },
    result := some { eventType := some "grounded_into_double_play" } }

/-- A pitch carrying true Statcast coordinates. -/
def pitchWithCoords : PitchEvent :=
  { isPitch := true, pitchNumber := some 1,
    pitchData := some { coordinates := some { pX := some 0.5, pZ := some 2.5 },
                        strikeZoneTop := some 3.4, strikeZoneBottom := some 1.6 } }

/-- A second record of the same physical pitch with no data of its own. -/
def pitchNoData : PitchEvent := { isPitch := true, pitchNumber := some 1 }

def playC7 : Play :=
  { about := { atBatIndex := some 0 },
    playEvents := [pitchWithCoords, pitchNoData] }

def gameC7 : Game := { allPlays := [playC7] }

/-- The single pitch of the one-pitch replay game: a swinging strike on a
four-seamer. -/
def pitchC8 : PitchEvent :=
  { isPitch := true, pitchNumber := some 1,
    details := some { description := some "Swinging Strike",
                      type := some { code := some "FF" } },
    count := some { balls := some 0, strikes := some 0 } }

/-- The single play of the one-pitch replay game: a strikeout. -/
def playC8 : Play :=
  { about := { atBatIndex := some 0, inning := 1, halfInning := "top" },
    matchup := { pitcher := { id := 10 }, batter := { id := 20 } },
    result := some { event := some "Strikeout", eventType := some "strikeout" },
    playEvents := [pitchC8] }

/-- A one-pitch game for exercising the replay step. -/
def gameC8 : Game := { allPlays := [playC8] }

def simC8 : SimState := { replayModeActive := true, pitchIndexMap := buildPitchIndexMap gameC8 }

/-- A location with inverted strike-zone bounds (szTop 0, szBot 5) as the
feed could deliver: a pitch at pz = 2 is then both more than 0.1 above
szTop and more than 0.1 below szBot. -/
def locBadZone : Loc :=
  { hasLocation := true, px := some 2, pz := some 2, szTop := some 0, szBot := some 5 }

def playPid1 : Play := { matchup := { pitcher := { id := 1 } } }

/-- A pitch sailing high and arm-side of a normal zone: two misses in one
pitch. -/
def locHighArm : Loc :=
  { hasLocation := true, px := some 2, pz := some 10, szTop := some 3.5, szBot := some 1.5 }

/-- Ten recorded high-and-arm-side misses by pitcher 1. -/
def cmdInputsWild : List CmdInput :=
  List.replicate 10 { play := playPid1, location := some locHighArm }

end MLB

/-! ## Verification of the claims -/

namespace MLB

/-! Arithmetic helpers -/

theorem div_lb (a s c : Rat) (hc : c ≤ 0) (hca : c ≤ a) (hs : 1 ≤ s) : c ≤ a / s := by
  rcases le_or_lt a 0 with ha | ha
  · have hs0 : (0 : Rat) < s := by linarith
    rw [le_div_iff₀ hs0]
    nlinarith
  · have : 0 < a / s := by positivity
    linarith

theorem normalize_total (m : Mix) (h : m.total ≠ 0) : (normalize m).total = 1 := by
  simp only [normalize, Mix.total] at h ⊢
  rw [if_neg h, div_add_div_same, div_add_div_same, div_self h]

theorem normalize_id (m : Mix) (h : m.total = 1) : normalize m = m := by
  simp only [normalize, Mix.total] at h ⊢
  rw [h]
  norm_num

theorem normalize_nonneg (m : Mix) (h : 0 < m.total)
    (hf : 0 ≤ m.fastball) (hb : 0 ≤ m.breaking) (hc : 0 ≤ m.change) :
    0 ≤ (normalize m).fastball ∧ 0 ≤ (normalize m).breaking ∧ 0 ≤ (normalize m).change := by
  simp only [normalize, Mix.total] at h ⊢
  rw [if_neg (by linarith)]
  refine ⟨?_, ?_, ?_⟩ <;> positivity

theorem normalize_lb (m : Mix) (h : 1 ≤ m.total) (cf cb cc : Rat)
    (hcf : cf ≤ 0) (hcb : cb ≤ 0) (hcc : cc ≤ 0)
    (hf : cf ≤ m.fastball) (hb : cb ≤ m.breaking) (hc : cc ≤ m.change) :
    (normalize m).total = 1 ∧
    cf ≤ (normalize m).fastball ∧ cb ≤ (normalize m).breaking ∧ cc ≤ (normalize m).change := by
  refine ⟨normalize_total m (by simp only [Mix.total] at h ⊢; intro h0; rw [h0] at h; norm_num at h), ?_, ?_, ?_⟩ <;>
  · simp only [normalize, Mix.total] at h ⊢
    rw [if_neg (by intro h0; rw [h0] at h; norm_num at h)]
    first
    | exact div_lb _ _ _ hcf hf h
    | exact div_lb _ _ _ hcb hb h
    | exact div_lb _ _ _ hcc hc h

/-! League table bounds -/

theorem predictBase_bounds (ctx : Ctx) :
    0.4 ≤ (predictBase ctx).fastball ∧ 0.1 ≤ (predictBase ctx).breaking ∧
    0.05 ≤ (predictBase ctx).change ∧ (predictBase ctx).total = 1 := by
  simp only [predictBase, leaguePitchMixByCount]
  rcases ctx.balls with _ | _ | _ | _ | b <;>
    rcases ctx.strikes with _ | _ | _ | st <;>
      simp [Mix.total] <;> norm_num

end MLB

namespace MLB

/-- Stages 1–4 of the mixer produce a proper mix (given a proper arsenal). -/
theorem stage14_bounds (ctx : Ctx) (harsenal : CtxArsenalOK ctx) :
    0 ≤ (predictRunners (predictHandedness (predictArsenalBlend (predictBase ctx) ctx) ctx) ctx).fastball ∧
    0 ≤ (predictRunners (predictHandedness (predictArsenalBlend (predictBase ctx) ctx) ctx) ctx).breaking ∧
    0 ≤ (predictRunners (predictHandedness (predictArsenalBlend (predictBase ctx) ctx) ctx) ctx).change ∧
    (predictRunners (predictHandedness (predictArsenalBlend (predictBase ctx) ctx) ctx) ctx).total = 1 := by
  obtain ⟨hbf, hbb, hbc, hbt⟩ := predictBase_bounds ctx
  set m0 := predictBase ctx with hm0
  have hblend : 0.2 ≤ (predictArsenalBlend m0 ctx).fastball ∧
      0.05 ≤ (predictArsenalBlend m0 ctx).breaking ∧
      0.025 ≤ (predictArsenalBlend m0 ctx).change ∧
      (predictArsenalBlend m0 ctx).total = 1 := by
    simp only [predictArsenalBlend]
    rcases ha : ctx.pitcherArsenalMix with _ | a
    · exact ⟨by linarith, by linarith, by linarith, hbt⟩
    · obtain ⟨haf, hab, hac, hat⟩ := harsenal a ha
      simp only [Mix.total] at hbt hat ⊢
      refine ⟨by nlinarith, by nlinarith, by nlinarith, by nlinarith⟩
  obtain ⟨h2f, h2b, h2c, h2t⟩ := hblend
  set m1 := predictArsenalBlend m0 ctx with hm1
  have hhand : 0.14 ≤ (predictHandedness m1 ctx).fastball ∧
      0.03 ≤ (predictHandedness m1 ctx).breaking ∧
      0.005 ≤ (predictHandedness m1 ctx).change ∧
      (predictHandedness m1 ctx).total = 1 := by
    simp only [predictHandedness, Mix.total] at h2t ⊢
    split_ifs with hrl hlr hlr2 <;>
      (try simp only [Mix.total]) <;>
      refine ⟨by linarith, by linarith, by linarith, by linarith⟩
  obtain ⟨h3f, h3b, h3c, h3t⟩ := hhand
  set m2 := predictHandedness m1 ctx with hm2
  simp only [predictRunners, Mix.total] at h3t ⊢
  split_ifs with hr <;>
    (try simp only [Mix.total]) <;>
    refine ⟨by linarith, by linarith, by linarith, by linarith⟩

end MLB

namespace MLB

theorem seqCountAdj_bounds (m : Mix) (ctx : Ctx) (harsenal : CtxArsenalOK ctx) :
    m.total ≤ (seqCountAdj m ctx).total ∧
    m.fastball - 0.1 ≤ (seqCountAdj m ctx).fastball ∧
    m.breaking - 0.06 ≤ (seqCountAdj m ctx).breaking ∧
    m.change - 0.04 ≤ (seqCountAdj m ctx).change := by
  rcases ha : ctx.pitcherArsenalMix with _ | a <;>
    simp only [seqCountAdj, ha] <;>
    split_ifs <;>
    simp only [Mix.total] <;>
    try (refine ⟨by linarith, by linarith, by linarith, by linarith⟩)
  all_goals
    obtain ⟨haf, hab, hac, hat⟩ := harsenal a ha
    refine ⟨by (try simp only [Mix.total]); nlinarith, by nlinarith, by nlinarith, by nlinarith⟩

theorem seqLastPitchAdj_bounds (m : Mix) (last : Option Family) :
    m.total ≤ (seqLastPitchAdj m last).total ∧
    m.fastball - 0.06 ≤ (seqLastPitchAdj m last).fastball ∧
    m.breaking - 0.04 ≤ (seqLastPitchAdj m last).breaking ∧
    m.change - 0.06 ≤ (seqLastPitchAdj m last).change := by
  simp only [seqLastPitchAdj]
  split_ifs <;>
    simp only [Mix.total] <;>
    refine ⟨by linarith, by linarith, by linarith, by linarith⟩

set_option maxHeartbeats 1000000 in
theorem seqSwingResultAdj_bounds (m : Mix) (last : Option Family) (desc : String) :
    m.total ≤ (seqSwingResultAdj m last desc).total ∧
    m.fastball ≤ (seqSwingResultAdj m last desc).fastball ∧
    m.breaking - 0.03 ≤ (seqSwingResultAdj m last desc).breaking ∧
    m.change - 0.03 ≤ (seqSwingResultAdj m last desc).change := by
  simp only [seqSwingResultAdj]
  rcases last with _ | fam
  · split_ifs <;>
      (try simp only [Mix.total]) <;>
      refine ⟨by linarith, by linarith, by linarith, by linarith⟩
  · rcases fam <;>
      split_ifs <;>
      (try simp only [Mix.total]) <;>
      refine ⟨by linarith, by linarith, by linarith, by linarith⟩

theorem seqTwoPitchAdj_bounds (m : Mix) (ctx : Ctx) :
    m.total ≤ (seqTwoPitchAdj m ctx).total ∧
    m.fastball ≤ (seqTwoPitchAdj m ctx).fastball ∧
    m.breaking ≤ (seqTwoPitchAdj m ctx).breaking ∧
    m.change ≤ (seqTwoPitchAdj m ctx).change := by
  simp only [seqTwoPitchAdj]
  generalize (ctx.lastTwoPitchTypes.map fun c => mapPitchCodeToBucket (some c)) = l
  rcases l with _ | ⟨a, _ | ⟨b, _ | t⟩⟩
  · exact ⟨le_refl _, le_refl _, le_refl _, le_refl _⟩
  · exact ⟨le_refl _, le_refl _, le_refl _, le_refl _⟩
  · rcases a with _ | fa <;> rcases b with _ | fb <;>
      (try rcases fa) <;> (try rcases fb) <;>
      refine ⟨?_, ?_, ?_, ?_⟩ <;>
      simp [Mix.total] <;> linarith
  · exact ⟨le_refl _, le_refl _, le_refl _, le_refl _⟩

theorem seqTunnelAdj_bounds (m : Mix) (ctx : Ctx) (last : Option Family) :
    m.total ≤ (seqTunnelAdj m ctx last).total ∧
    m.fastball ≤ (seqTunnelAdj m ctx last).fastball ∧
    m.breaking ≤ (seqTunnelAdj m ctx last).breaking ∧
    m.change ≤ (seqTunnelAdj m ctx last).change := by
  simp only [seqTunnelAdj]
  rcases ctx.tunnelInfo with _ | t <;>
    split_ifs <;>
    simp only [Mix.total] <;>
    refine ⟨by linarith, by linarith, by linarith, by linarith⟩

theorem seqCommandAdj_bounds (pcs : AList Nat CommandStats) (m : Mix) (ctx : Ctx) :
    m.total ≤ (seqCommandAdj pcs m ctx).total ∧
    m.fastball - 0.04 ≤ (seqCommandAdj pcs m ctx).fastball ∧
    m.breaking - 0.05 ≤ (seqCommandAdj pcs m ctx).breaking ∧
    m.change - 0.03 ≤ (seqCommandAdj pcs m ctx).change := by
  simp only [seqCommandAdj]
  split_ifs <;>
    simp only [Mix.total] <;>
    refine ⟨by linarith, by linarith, by linarith, by linarith⟩

/-- After the sequencing matrix (which ends in a normalize): sum exactly 1,
entries not far below zero. -/
theorem applySequencingAdjustments_bounds (pcs : AList Nat CommandStats) (m : Mix)
    (ctx : Ctx) (harsenal : CtxArsenalOK ctx)
    (hf : 0 ≤ m.fastball) (hb : 0 ≤ m.breaking) (hc : 0 ≤ m.change) (ht : m.total = 1) :
    (applySequencingAdjustments pcs m (some ctx)).total = 1 ∧
    -0.2 ≤ (applySequencingAdjustments pcs m (some ctx)).fastball ∧
    -0.18 ≤ (applySequencingAdjustments pcs m (some ctx)).breaking ∧
    -0.16 ≤ (applySequencingAdjustments pcs m (some ctx)).change := by
  simp only [applySequencingAdjustments]
  obtain ⟨t1, f1, b1, c1⟩ := seqCountAdj_bounds m ctx harsenal
  obtain ⟨t2, f2, b2, c2⟩ := seqLastPitchAdj_bounds (seqCountAdj m ctx)
    (mapPitchCodeToBucket ctx.lastPitchType)
  obtain ⟨t3, f3, b3, c3⟩ := seqSwingResultAdj_bounds
    (seqLastPitchAdj (seqCountAdj m ctx) (mapPitchCodeToBucket ctx.lastPitchType))
    (mapPitchCodeToBucket ctx.lastPitchType) (strLower ctx.lastPitchDescription)
  obtain ⟨t4, f4, b4, c4⟩ := seqTwoPitchAdj_bounds
    (seqSwingResultAdj
      (seqLastPitchAdj (seqCountAdj m ctx) (mapPitchCodeToBucket ctx.lastPitchType))
      (mapPitchCodeToBucket ctx.lastPitchType) (strLower ctx.lastPitchDescription)) ctx
  obtain ⟨t5, f5, b5, c5⟩ := seqTunnelAdj_bounds
    (seqTwoPitchAdj
      (seqSwingResultAdj
        (seqLastPitchAdj (seqCountAdj m ctx) (mapPitchCodeToBucket ctx.lastPitchType))
        (mapPitchCodeToBucket ctx.lastPitchType) (strLower ctx.lastPitchDescription)) ctx)
    ctx (mapPitchCodeToBucket ctx.lastPitchType)
  obtain ⟨t6, f6, b6, c6⟩ := seqCommandAdj_bounds pcs
    (seqTunnelAdj
      (seqTwoPitchAdj
        (seqSwingResultAdj
          (seqLastPitchAdj (seqCountAdj m ctx) (mapPitchCodeToBucket ctx.lastPitchType))
          (mapPitchCodeToBucket ctx.lastPitchType) (strLower ctx.lastPitchDescription)) ctx)
      ctx (mapPitchCodeToBucket ctx.lastPitchType)) ctx
  obtain ⟨htt, hff, hbb, hcc⟩ := normalize_lb _ (by linarith) (-0.2) (-0.18) (-0.16)
    (by norm_num) (by norm_num) (by norm_num) (by linarith) (by linarith) (by linarith)
  exact ⟨htt, hff, hbb, hcc⟩

end MLB

namespace MLB

/-- After location sequencing (which also ends in normalize when it fires):
sum exactly 1, entries bounded below. -/
theorem applyLocationSequencing_bounds (m : Mix) (ctx : Ctx)
    (ht : m.total = 1) (hf : -0.2 ≤ m.fastball) (hb : -0.18 ≤ m.breaking)
    (hc : -0.16 ≤ m.change) :
    (applyLocationSequencing m (some ctx)).total = 1 ∧
    -0.38 ≤ (applyLocationSequencing m (some ctx)).fastball ∧
    -0.23 ≤ (applyLocationSequencing m (some ctx)).breaking ∧
    -0.22 ≤ (applyLocationSequencing m (some ctx)).change := by
  simp only [applyLocationSequencing]
  rcases hz : ctx.lastPitchLocationZone with _ | zone <;>
    rcases hl : mapPitchCodeToBucket ctx.lastPitchType with _ | lastFam <;>
    (try exact ⟨ht, by linarith, by linarith, by linarith⟩)
  dsimp only
  split_ifs with hzz h1 h2 h3 h4 <;>
    (try exact ⟨ht, by linarith, by linarith, by linarith⟩) <;>
    simp only [Mix.total] at ht <;>
    (refine
      (normalize_lb _ (by simp only [Mix.total]; (try dsimp only); linarith) (-0.38) (-0.23) (-0.22)
        (by norm_num) (by norm_num) (by norm_num) (by (try dsimp only); linarith)
        (by (try dsimp only); linarith) (by (try dsimp only); linarith)))

end MLB

namespace MLB

theorem mul_v_lb (x v lb : Rat) (hlb : lb ≤ 0) (hx : lb ≤ x) (hv0 : 0 ≤ v) (hv1 : v ≤ 1) :
    lb ≤ x * v := by
  rcases le_or_lt 0 x with h | h
  · nlinarith
  · nlinarith

/-- Stage 7 can shrink the sum, but never below 0.7 given the pre-tilt
bounds. -/
theorem predictVulnTilt_total (m : Mix) (ctx : Ctx) (hvuln : CtxVulnOK ctx)
    (ht : m.total = 1) (hf : -0.38 ≤ m.fastball) (hb : -0.23 ≤ m.breaking)
    (hc : -0.22 ≤ m.change) :
    0.7 ≤ (predictVulnTilt m ctx).total := by
  simp only [predictVulnTilt]
  rcases hp : ctx.batterVsPitch with _ | p <;> simp only [hp]
  · linarith
  · obtain ⟨⟨hvf0, hvf1⟩, ⟨hvb0, hvb1⟩, ⟨hvc0, hvc1⟩⟩ := hvuln p hp
    have hfv : (-0.38 : Rat) ≤ m.fastball * p.vuln.fastball :=
      mul_v_lb _ _ _ (by norm_num) hf hvf0 hvf1
    have hbv : (-0.23 : Rat) ≤ m.breaking * p.vuln.breaking :=
      mul_v_lb _ _ _ (by norm_num) hb hvb0 hvb1
    have hcv : (-0.22 : Rat) ≤ m.change * p.vuln.change :=
      mul_v_lb _ _ _ (by norm_num) hc hvc0 hvc1
    simp only [Mix.total] at ht ⊢
    have e1 : m.fastball * (1 + p.vuln.fastball * 0.35) =
        m.fastball + m.fastball * p.vuln.fastball * 0.35 := by ring
    have e2 : m.breaking * (1 + p.vuln.breaking * 0.35) =
        m.breaking + m.breaking * p.vuln.breaking * 0.35 := by ring
    have e3 : m.change * (1 + p.vuln.change * 0.35) =
        m.change + m.change * p.vuln.change * 0.35 := by ring
    rw [e1, e2, e3]
    linarith

/-- Stage 8 only adds non-negative deltas to the sum. -/
theorem predictTunnelAdj_total (m : Mix) (ctx : Ctx) :
    m.total ≤ (predictTunnelAdj m ctx).total := by
  simp only [predictTunnelAdj]
  rcases ctx.tunnelInfo with _ | t <;>
    split_ifs <;>
    (try simp only [Mix.total]) <;>
    linarith

/-- Stage 9 keeps the sum positive (a proper in-game mix has sum 1). -/
theorem predictGameMixBlend_total (m : Mix) (ctx : Ctx) (hgame : CtxGameMixOK ctx)
    (h : 0.7 ≤ m.total) : 0 < (predictGameMixBlend m ctx).total := by
  simp only [predictGameMixBlend]
  rcases hg : ctx.pitcherGameMix with _ | g <;> simp only [hg]
  · linarith
  · obtain ⟨_, _, _, hgt⟩ := hgame g hg
    simp only [Mix.total] at h hgt ⊢
    linarith

/-- The full mixer pipeline yields a sum of exactly 1 on a present
context. -/
theorem predictPitchType_total (pcs : AList Nat CommandStats) (ctx : Ctx)
    (harsenal : CtxArsenalOK ctx) (hgame : CtxGameMixOK ctx) (hvuln : CtxVulnOK ctx) :
    (predictPitchType pcs (some ctx)).total = 1 := by
  simp only [predictPitchType]
  obtain ⟨h4f, h4b, h4c, h4t⟩ := stage14_bounds ctx harsenal
  rw [normalize_id _ h4t]
  set m5 := applySequencingAdjustments pcs
    (predictRunners (predictHandedness (predictArsenalBlend (predictBase ctx) ctx) ctx) ctx)
    (some ctx) with hm5
  obtain ⟨h5t, h5f, h5b, h5c⟩ :=
    applySequencingAdjustments_bounds pcs _ ctx harsenal h4f h4b h4c h4t
  set m6 := applyLocationSequencing m5 (some ctx) with hm6
  obtain ⟨h6t, h6f, h6b, h6c⟩ :=
    applyLocationSequencing_bounds m5 ctx h5t h5f h5b h5c
  rw [normalize_id m6 h6t]
  have h7 := predictVulnTilt_total m6 ctx hvuln h6t h6f h6b h6c
  have h8 := predictTunnelAdj_total (predictVulnTilt m6 ctx) ctx
  have h9 := predictGameMixBlend_total (predictTunnelAdj (predictVulnTilt m6 ctx) ctx) ctx
    hgame (by linarith)
  exact normalize_total _ (by intro h0; rw [h0] at h9; norm_num at h9)

end MLB

namespace MLB

theorem league_or_default_ok (b s : Nat) :
    MixOK ((leaguePitchMixByCount b s).getD ⟨0.6, 0.25, 0.15⟩) := by
  rcases b with _ | _ | _ | _ | b <;>
    rcases s with _ | _ | _ | s <;>
      simp [leaguePitchMixByCount, MixOK, Mix.total] <;> norm_num

theorem getCountFactor_lb (fam : Family) (b s : Nat) : 0.8 ≤ getCountFactor fam b s := by
  rcases fam <;> simp only [getCountFactor] <;> split_ifs <;> norm_num

theorem natRate_bounds (a b : Nat) (hab : a ≤ b) :
    0 ≤ (if b > 0 then (a : Rat) / b else 0) ∧ (if b > 0 then (a : Rat) / b else 0) ≤ 1 := by
  split_ifs with h
  · have hb' : (0 : Rat) < b := by exact_mod_cast h
    constructor
    · positivity
    · rw [div_le_one hb']
      exact_mod_cast hab
  · norm_num

/-- Any zone-effectiveness score produced from a sane store lies in
[0, 1]. -/
theorem getBatterZoneEV_bounds (zs : ZoneStore) (bid : Nat) (zone : String)
    (fam : Family) (z : Rat) (hsane : ZoneStoreSane zs)
    (h : getBatterZoneEV zs bid zone fam = some z) : 0 ≤ z ∧ z ≤ 1 := by
  simp only [getBatterZoneEV] at h
  rcases hl : (alookup zs bid).bind
      (fun zones => (alookup zones zone).bind (fun zf => zf.get fam)) with _ | st <;>
    simp only [hl] at h
  case none => exact Option.noConfusion h
  rw [Option.bind_eq_some] at hl
  obtain ⟨zones, hzones, hl2⟩ := hl
  rw [Option.bind_eq_some] at hl2
  obtain ⟨zf, hzf, hst⟩ := hl2
  obtain ⟨hws, hhi, hhh⟩ := hsane bid zones hzones zone zf hzf fam st hst
  by_cases hseen : st.seen < 3
  · rw [if_pos hseen] at h
    exact Option.noConfusion h
  · rw [if_neg hseen] at h
    simp only [Option.some.injEq] at h
    subst h
    obtain ⟨hw0, hw1⟩ := natRate_bounds st.whiffs st.swings hws
    obtain ⟨hh0, hh1⟩ := natRate_bounds st.hits st.inPlay hhi
    obtain ⟨hq0, hq1⟩ := natRate_bounds st.hardHit st.inPlay hhh
    constructor <;> linarith

/-- Per-family score lower bound for the optimal recommender. -/
theorem optimalScore_lb (zs : ZoneStore) (ctx : Ctx) (base : Mix)
    (vuln : Option VulnScores) (fam : Family) (hsane : ZoneStoreSane zs)
    (hb : 0 ≤ base.get fam) (hv : ∀ v, vuln = some v → 0 ≤ v.get fam) :
    0.16 * base.get fam ≤ optimalScore zs ctx base vuln fam := by
  have hcf := getCountFactor_lb fam ctx.balls ctx.strikes
  have key : ∀ s2 : Rat, 0.32 * base.get fam ≤ s2 → 0 ≤ s2 →
      0.16 * base.get fam ≤
        (match ctx.lastPitchLocationZone with
          | some zone =>
            if zone ≠ "" ∧ ctx.batterId ≠ 0 then
              match getBatterZoneEV zs ctx.batterId zone fam with
              | some zoneEV => 0.5 * s2 + 0.5 * zoneEV
              | none => s2
            else s2
          | none => s2) := by
    intro s2 h2 h2'
    rcases hz : ctx.lastPitchLocationZone with _ | zone <;> simp only [hz]
    · linarith
    · split_ifs with hzz
      · rcases hev : getBatterZoneEV zs ctx.batterId zone fam with _ | ev <;> simp only [hev]
        · linarith
        · obtain ⟨hev0, hev1⟩ := getBatterZoneEV_bounds zs ctx.batterId zone fam ev hsane hev
          linarith
      · linarith
  simp only [optimalScore]
  rcases vuln with _ | v
  · exact key _ (by nlinarith) (by nlinarith)
  · have hv0 := hv v rfl
    exact key _ (by nlinarith) (by nlinarith)

/-- The optimal recommender returns a proper probability mix. -/
theorem recommendOptimalPitch_ok (zs : ZoneStore) (ctx : Ctx)
    (harsenal : CtxArsenalOK ctx) (hvuln : CtxVulnOK ctx) (hsane : ZoneStoreSane zs) :
    MixOK (recommendOptimalPitch zs ctx).mix := by
  simp only [recommendOptimalPitch]
  have hbase0 : MixOK ((ctx.pitcherArsenalMix <|>
      leaguePitchMixByCount ctx.balls ctx.strikes).getD ⟨0.6, 0.25, 0.15⟩) := by
    rcases ha : ctx.pitcherArsenalMix with _ | a
    · simp only [Option.none_orElse]
      exact league_or_default_ok ctx.balls ctx.strikes
    · simp only [Option.some_orElse, Option.getD_some]
      exact harsenal a ha
  set base0 := (ctx.pitcherArsenalMix <|>
      leaguePitchMixByCount ctx.balls ctx.strikes).getD ⟨0.6, 0.25, 0.15⟩ with hb0
  obtain ⟨hbf, hbb, hbc, hbt⟩ := hbase0
  rw [normalize_id base0 hbt]
  have hv : ∀ fam, ∀ v, ctx.batterVsPitch.map (fun p => p.vuln) = some v → 0 ≤ v.get fam := by
    intro fam v hvv
    rw [Option.map_eq_some'] at hvv
    obtain ⟨p, hp, hpv⟩ := hvv
    obtain ⟨⟨hf0, _⟩, ⟨hb0, _⟩, ⟨hc0, _⟩⟩ := hvuln p hp
    subst hpv
    rcases fam <;> simpa [VulnScores.get]
  have hF := optimalScore_lb zs ctx base0 (ctx.batterVsPitch.map (fun p => p.vuln)) .fastball
    hsane (by simpa [Mix.get] using hbf) (hv .fastball)
  have hB := optimalScore_lb zs ctx base0 (ctx.batterVsPitch.map (fun p => p.vuln)) .breaking
    hsane (by simpa [Mix.get] using hbb) (hv .breaking)
  have hC := optimalScore_lb zs ctx base0 (ctx.batterVsPitch.map (fun p => p.vuln)) .change
    hsane (by simpa [Mix.get] using hbc) (hv .change)
  simp only [Mix.get] at hF hB hC
  simp only [Mix.total] at hbt
  have hsf : 0 ≤ optimalScore zs ctx base0 (ctx.batterVsPitch.map (fun p => p.vuln)) .fastball := by
    nlinarith
  have hsb : 0 ≤ optimalScore zs ctx base0 (ctx.batterVsPitch.map (fun p => p.vuln)) .breaking := by
    nlinarith
  have hsc : 0 ≤ optimalScore zs ctx base0 (ctx.batterVsPitch.map (fun p => p.vuln)) .change := by
    nlinarith
  have hst : (0.16 : Rat) ≤ (⟨optimalScore zs ctx base0 (ctx.batterVsPitch.map (fun p => p.vuln)) .fastball,
      optimalScore zs ctx base0 (ctx.batterVsPitch.map (fun p => p.vuln)) .breaking,
      optimalScore zs ctx base0 (ctx.batterVsPitch.map (fun p => p.vuln)) .change⟩ : Mix).total := by
    simp only [Mix.total]
    nlinarith
  obtain ⟨hn0f, hn0b, hn0c⟩ := normalize_nonneg _ (by linarith) hsf hsb hsc
  exact ⟨hn0f, hn0b, hn0c, normalize_total _ (by intro h0; rw [h0] at hst; norm_num at hst)⟩

end MLB

namespace MLB

set_option maxRecDepth 8000 in
/-- C1 counterexample: on the reachable 2-0 context with a changeup taken for a
ball, the mixer returns the distribution (9/10, 13/100, -3/100) with a negative
change share, because normalize never floors negatives; the shares still sum
to 1. -/
theorem C1_counterexample :
    (predictPitchType [] (some ctxNeg)).change < 0 ∧
    (predictPitchType [] (some ctxNeg)).total = 1 := by
  have hmap : mapPitchCodeToBucket (some "CH") = some Family.change := by rfl
  have hlow : strLower "Ball" = "ball" := by rfl
  have hc1 : containsSub "ball" "swinging strike" = false := by rfl
  have hc2 : containsSub "ball" "foul" = false := by rfl
  have hc3 : containsSub "ball" "ball" = true := by rfl
  have hc4 : containsSub "ball" "called strike" = false := by rfl
  have hwild : getPitcherWildness [] 0 = 0 := by rfl
  have hvelo : getPitcherVeloTrend [] 0 = 0 := by rfl
  have e1 : ("R" = "L") = False := by decide
  have e2 : ("R" = "R") = True := by decide
  have e3 : (Family.change = Family.fastball) = False := by decide
  have e4 : (Family.change = Family.breaking) = False := by decide
  have e5 : (Family.change = Family.change) = True := by decide
  have e6 : (some Family.change = some Family.fastball) = False := by decide
  have e7 : (some Family.change = some Family.breaking) = False := by decide
  have e8 : (some Family.change = some Family.change) = True := by decide
  have hval : predictPitchType [] (some ctxNeg) =
      { fastball := 9/10, breaking := 13/100, change := -3/100 } := by
    norm_num [predictPitchType, ctxNeg, predictBase, leaguePitchMixByCount,
      predictArsenalBlend, predictHandedness, predictRunners, normalize,
      applySequencingAdjustments, seqCountAdj, seqLastPitchAdj, seqSwingResultAdj,
      seqTwoPitchAdj, seqTunnelAdj, seqCommandAdj, applyLocationSequencing,
      predictVulnTilt, predictTunnelAdj, predictGameMixBlend, Mix.total,
      hmap, hlow, hc1, hc2, hc3, hc4, hwild, hvelo,
      e1, e2, e3, e4, e5, e6, e7, e8]
  rw [hval]
  constructor
  · norm_num
  · simp only [Mix.total]
    norm_num

end MLB

namespace MLB

/-- C1 (amended): the final normalize does not floor negative shares, so the
non-negativity half of the claim fails for the mixer.  What does hold: on any
context whose arsenal baseline, in-game mix and vulnerability scores are
proper, predictPitchType returns shares summing to exactly 1; the null-context
default is a proper mix; and recommendOptimalPitch always returns a proper
non-negative mix summing to 1. -/
theorem C1_amended_distribution (pcs : AList Nat CommandStats) (zs : ZoneStore) (ctx : Ctx)
    (harsenal : CtxArsenalOK ctx) (hgame : CtxGameMixOK ctx) (hvuln : CtxVulnOK ctx)
    (hsane : ZoneStoreSane zs) :
    (predictPitchType pcs (some ctx)).total = 1 ∧
    MixOK (predictPitchType pcs none) ∧
    MixOK (recommendOptimalPitch zs ctx).mix := by
  refine ⟨predictPitchType_total pcs ctx harsenal hgame hvuln, ?_,
    recommendOptimalPitch_ok zs ctx harsenal hvuln hsane⟩
  refine ⟨by norm_num [predictPitchType], by norm_num [predictPitchType],
    by norm_num [predictPitchType], by norm_num [predictPitchType, Mix.total]⟩

theorem C1_amended_distribution_witness :
    CtxArsenalOK ctxNeg ∧ CtxGameMixOK ctxNeg ∧ CtxVulnOK ctxNeg ∧
    ZoneStoreSane ([] : ZoneStore) ∧
    ((predictPitchType [] (some ctxNeg)).total = 1 ∧
     MixOK (predictPitchType [] none) ∧
     MixOK (recommendOptimalPitch [] ctxNeg).mix) := by
  have h1 : CtxArsenalOK ctxNeg := by intro a ha; exact Option.noConfusion ha
  have h2 : CtxGameMixOK ctxNeg := by intro g hg; exact Option.noConfusion hg
  have h3 : CtxVulnOK ctxNeg := by intro p hp; exact Option.noConfusion hp
  have h4 : ZoneStoreSane ([] : ZoneStore) := by intro bid zones h; exact Option.noConfusion h
  exact ⟨h1, h2, h3, h4, C1_amended_distribution [] [] ctxNeg h1 h2 h3 h4⟩

end MLB

namespace MLB

-- C6 counterexample
/-- C6 counterexample: the classifier is not total as claimed - an empty or
absent pitch code yields no family at all rather than the fastball default. -/
theorem C6_counterexample :
    mapPitchCodeToBucket (some "") = none ∧ mapPitchCodeToBucket none = none := by
  constructor <;> rfl

-- C6 amended
/-- C6 (amended): on non-empty codes the classifier is total and deterministic,
classifies a two-seamer (FT) exactly like a sinker (SI) and a knuckle-curve
(KC) exactly like a sweeper (SW), and sends every unknown non-empty code to
fastball; the empty or absent code is the sole exception to totality. -/
theorem C6_amended_classifier :
    (∀ c : String, c ≠ "" → (mapPitchCodeToBucket (some c)).isSome) ∧
    mapPitchCodeToBucket (some "FT") = mapPitchCodeToBucket (some "SI") ∧
    mapPitchCodeToBucket (some "KC") = mapPitchCodeToBucket (some "SW") ∧
    (∀ c : String, c ≠ "" →
      normalizeCode (strUpper c) ∉ fastballCodes →
      normalizeCode (strUpper c) ∉ splitterCodes →
      normalizeCode (strUpper c) ∉ changeCodes →
      normalizeCode (strUpper c) ∉ breakingCodes →
      mapPitchCodeToBucket (some c) = some Family.fastball) := by
  refine ⟨?_, rfl, rfl, ?_⟩
  · intro c hc
    simp only [mapPitchCodeToBucket, if_neg hc]
    split_ifs <;> simp
  · intro c hc h1 h2 h3 h4
    simp only [mapPitchCodeToBucket, if_neg hc, if_neg h1, if_neg h2, if_neg h3, if_neg h4]

theorem C6_amended_classifier_witness :
    ("ZZ" : String) ≠ "" ∧
    (mapPitchCodeToBucket (some "ZZ")).isSome = true ∧
    mapPitchCodeToBucket (some "ZZ") = some Family.fastball :=
  ⟨by decide, C6_amended_classifier.1 "ZZ" (by decide),
   C6_amended_classifier.2.2.2 "ZZ" (by decide) (by decide) (by decide) (by decide) (by decide)⟩

-- C3 counterexample: summed break diff exactly 3.0 still yields a tunnel
/-- C3 counterexample: two movement-only contexts whose summed break-component
difference is exactly the 3.0 threshold still produce a tunnel, contradicting
the claim that the boundary value yields none. -/
theorem C3_counterexample :
    (detectTunnel (some tcA) (some tcB)).map (·.totalBreakDiff) =
       some TUNNEL_BREAK_DIFF_THRESHOLD ∧
    (detectTunnel (some tcA) (some tcB)).isSome = true := by
  constructor <;>
    norm_num [detectTunnel, tcA, tcB, tunnelLabel, TUNNEL_BREAK_DIFF_THRESHOLD,
      TUNNEL_HORIZONTAL_THRESHOLD, TUNNEL_VERTICAL_THRESHOLD]

-- C3 amended characterization
/-- C3 (amended): detectTunnel yields a result iff both contexts are present with
location records, each record has planar or break data, both planar diffs
(missing coordinates treated as 0) are strictly below the 0.3 thresholds, and
the summed absolute break difference is at least - not strictly above - the
3.0 threshold. -/
theorem C3_amended_tunnel (pc? cc? : Option TunnelCtx) :
    (detectTunnel pc? cc?).isSome ↔
      ∃ pc cc A B, pc? = some pc ∧ cc? = some cc ∧
        pc.location = some A ∧ cc.location = some B ∧
        (A.hasLocation = true ∨ A.isBreakData = true) ∧
        (B.hasLocation = true ∨ B.isBreakData = true) ∧
        |A.px.getD 0 - B.px.getD 0| < TUNNEL_HORIZONTAL_THRESHOLD ∧
        |A.pz.getD 0 - B.pz.getD 0| < TUNNEL_VERTICAL_THRESHOLD ∧
        TUNNEL_BREAK_DIFF_THRESHOLD ≤ |A.hb.getD 0 - B.hb.getD 0| + |A.vb.getD 0 - B.vb.getD 0| := by
  have flagOfNot : ∀ x y : Bool, ¬(!x && !y) = true → x = true ∨ y = true := by decide
  have notOfFlag : ∀ x y : Bool, x = true ∨ y = true → ¬(!x && !y) = true := by decide
  match pc?, cc? with
  | none, none => simp [detectTunnel]
  | none, some cc => simp [detectTunnel]
  | some pc, none => simp [detectTunnel]
  | some pc, some cc =>
    match hA : pc.location, hB : cc.location with
    | none, _ => simp [detectTunnel, hA]
    | some A, none => simp [detectTunnel, hA, hB]
    | some A, some B =>
      simp only [detectTunnel, hA, hB]
      constructor
      · intro hsome
        refine ⟨pc, cc, A, B, rfl, rfl, hA, hB, ?_⟩
        split_ifs at hsome with h1 h2 h3 h4
        · exact absurd hsome (by simp)
        · exact absurd hsome (by simp)
        · exact absurd hsome (by simp)
        · exact ⟨flagOfNot _ _ h1, flagOfNot _ _ h2, h3.1, h3.2, not_lt.mp h4⟩
        · exact absurd hsome (by simp)
      · rintro ⟨pc', cc', A', B', hpc, hcc, hA', hB', flagA, flagB, hpx, hpz, hbr⟩
        simp only [Option.some.injEq] at hpc hcc
        subst hpc
        subst hcc
        rw [hA] at hA'
        rw [hB] at hB'
        simp only [Option.some.injEq] at hA' hB'
        subst hA'
        subst hB'
        rw [if_neg (notOfFlag _ _ flagA), if_neg (notOfFlag _ _ flagB),
          if_pos ⟨hpx, hpz⟩, if_neg (not_lt.mpr hbr)]
        simp

end MLB

namespace MLB

-- C5
/-- C5: updateBatterVsPitchStats decides hits by substring inclusion on the event
type, so a grounded_into_double_play - whose name contains the substring
double - increments the hit counter on the final pitch, contradicting the
claim that a double play is never counted as a hit. -/
theorem C5_double_play_hit_eval :
    (playDP.result.bind (·.eventType)) = some "grounded_into_double_play" ∧
    (alookup (updateBatterVsPitchStats playDP pitchDP (some Family.fastball) true none [] []).1 20).map
      (fun f => (f.fastball.seen, f.fastball.swings, f.fastball.whiffs, f.fastball.inPlay,
                 f.fastball.hits, f.fastball.hardHit)) = some (1, 1, 0, 1, 1, 0) := by
  exact ⟨rfl, by decide⟩

/-- C2: on a null context the mixer does return the uniform-ish default, but the
optimal recommender does not fall back to a default: it dereferences the null
context and throws a TypeError (modelled by none), and the /api/pitch-type
flow built on it therefore fails rather than continuing. -/
theorem C2_null_context_behaviour :
    (buildReplayPitchContext gEmpty 5 0 0 {}).1 = none ∧
    predictPitchType [] none = ⟨0.33, 0.33, 0.34⟩ ∧
    recommendOptimalPitchChecked [] none = none ∧
    apiPitchTypeCore gEmpty 5 0 {} = none := by
  refine ⟨rfl, rfl, rfl, rfl⟩

-- C4 counterexample
/-- C4 counterexample: a batter with only 2 fastballs seen (below the claimed
3-observation gate) still gets a reported fastball vulnerability score of 1;
only the top-weak-family designation is withheld. -/
theorem C4_counterexample :
    (getBatterVsPitchProfile (aset [] 5 rawTwoSeen) 5).map
        (fun p => (p.stats.fastball.seen, p.vuln.fastball, p.topWeakFamily)) =
      some (2, 1, none) := by
  norm_num [getBatterVsPitchProfile, aset, alookup, rawTwoSeen, vulnStep, famScore]

end MLB

namespace MLB

theorem vulnStep_lt (fam : Family) (s : FamStats) (acc : Option Family × Option Rat)
    (h : s.seen < 3) : vulnStep fam s acc = acc := by
  simp only [vulnStep]
  rw [if_neg]
  simp only [Bool.and_eq_true, decide_eq_true_eq]
  rintro ⟨h3, -⟩
  omega

theorem vulnStep_none (fam : Family) (s : FamStats) (acc : Option Family × Option Rat)
    (h : 3 ≤ s.seen) (h2 : acc.2 = none) :
    vulnStep fam s acc = (some fam, some (famScore s)) := by
  simp only [vulnStep, h2]
  rw [if_pos]
  simp only [Bool.and_eq_true, decide_eq_true_eq, Bool.and_true]
  exact h

theorem vulnStep_gt (fam : Family) (s : FamStats) (acc : Option Family × Option Rat)
    (b : Rat) (h : 3 ≤ s.seen) (h2 : acc.2 = some b) (h3 : b < famScore s) :
    vulnStep fam s acc = (some fam, some (famScore s)) := by
  simp only [vulnStep, h2]
  rw [if_pos]
  simp only [Bool.and_eq_true, decide_eq_true_eq]
  exact ⟨h, h3⟩

theorem vulnStep_le (fam : Family) (s : FamStats) (acc : Option Family × Option Rat)
    (b : Rat) (h : 3 ≤ s.seen) (h2 : acc.2 = some b) (h3 : famScore s ≤ b) :
    vulnStep fam s acc = acc := by
  simp only [vulnStep, h2]
  rw [if_neg]
  simp only [Bool.and_eq_true, decide_eq_true_eq]
  rintro ⟨-, hgt⟩
  linarith

/-- C4 (amended): getBatterVsPitchProfile reports a vulnerability score for every
family regardless of sample size; the 3-observation gate applies only to the
top weak family, which is the first family in fastball-breaking-change order
attaining the maximal score among families with at least 3 seen (a later
family must beat an earlier one strictly to displace it). -/
theorem C4_amended_vulnerability (store : AList Nat BatterFamilies) (bid : Nat)
    (raw : BatterFamilies) (h : alookup store bid = some raw) :
    (getBatterVsPitchProfile store bid).map (·.vuln.fastball) = some (famScore raw.fastball) ∧
    (getBatterVsPitchProfile store bid).map (·.vuln.breaking) = some (famScore raw.breaking) ∧
    (getBatterVsPitchProfile store bid).map (·.vuln.change) = some (famScore raw.change) ∧
    ((getBatterVsPitchProfile store bid).map (·.topWeakFamily) = some none ↔
      raw.fastball.seen < 3 ∧ raw.breaking.seen < 3 ∧ raw.change.seen < 3) ∧
    ((getBatterVsPitchProfile store bid).map (·.topWeakFamily) = some (some Family.fastball) →
      3 ≤ raw.fastball.seen ∧
      (3 ≤ raw.breaking.seen → famScore raw.breaking ≤ famScore raw.fastball) ∧
      (3 ≤ raw.change.seen → famScore raw.change ≤ famScore raw.fastball)) ∧
    ((getBatterVsPitchProfile store bid).map (·.topWeakFamily) = some (some Family.breaking) →
      3 ≤ raw.breaking.seen ∧
      (3 ≤ raw.fastball.seen → famScore raw.fastball < famScore raw.breaking) ∧
      (3 ≤ raw.change.seen → famScore raw.change ≤ famScore raw.breaking)) ∧
    ((getBatterVsPitchProfile store bid).map (·.topWeakFamily) = some (some Family.change) →
      3 ≤ raw.change.seen ∧
      (3 ≤ raw.fastball.seen → famScore raw.fastball < famScore raw.change) ∧
      (3 ≤ raw.breaking.seen → famScore raw.breaking < famScore raw.change)) := by
  rcases Nat.lt_or_ge raw.fastball.seen 3 with hF | hF
  · rcases Nat.lt_or_ge raw.breaking.seen 3 with hB | hB
    · rcases Nat.lt_or_ge raw.change.seen 3 with hC | hC
      · have echain : vulnStep .change raw.change (vulnStep .breaking raw.breaking
            (vulnStep .fastball raw.fastball (none, none))) = (none, none) := by
          rw [vulnStep_lt _ _ _ hF, vulnStep_lt _ _ _ hB, vulnStep_lt _ _ _ hC]
        simp only [getBatterVsPitchProfile, h, echain]
        refine ⟨rfl, rfl, rfl, ?_, ?_, ?_, ?_⟩ <;> simp <;> omega
      · have echain : vulnStep .change raw.change (vulnStep .breaking raw.breaking
            (vulnStep .fastball raw.fastball (none, none))) =
              (some .change, some (famScore raw.change)) := by
          rw [vulnStep_lt _ _ _ hF, vulnStep_lt _ _ _ hB, vulnStep_none _ _ _ hC rfl]
        simp only [getBatterVsPitchProfile, h, echain]
        refine ⟨rfl, rfl, rfl, ?_, ?_, ?_, ?_⟩ <;> simp <;> omega
    · rcases Nat.lt_or_ge raw.change.seen 3 with hC | hC
      · have echain : vulnStep .change raw.change (vulnStep .breaking raw.breaking
            (vulnStep .fastball raw.fastball (none, none))) =
              (some .breaking, some (famScore raw.breaking)) := by
          rw [vulnStep_lt _ _ _ hF, vulnStep_none _ _ _ hB rfl, vulnStep_lt _ _ _ hC]
        simp only [getBatterVsPitchProfile, h, echain]
        refine ⟨rfl, rfl, rfl, ?_, ?_, ?_, ?_⟩ <;> simp <;> omega
      · rcases le_or_lt (famScore raw.change) (famScore raw.breaking) with hcmp | hcmp
        · have echain : vulnStep .change raw.change (vulnStep .breaking raw.breaking
              (vulnStep .fastball raw.fastball (none, none))) =
                (some .breaking, some (famScore raw.breaking)) := by
            rw [vulnStep_lt _ _ _ hF, vulnStep_none _ _ _ hB rfl, vulnStep_le _ _ _ _ hC rfl hcmp]
          simp only [getBatterVsPitchProfile, h, echain]
          refine ⟨rfl, rfl, rfl, ?_, ?_, ?_, ?_⟩ <;> simp <;>
            first
            | omega
            | (refine ⟨hB, fun hf => absurd hf (by omega), fun _ => hcmp⟩)
        · have echain : vulnStep .change raw.change (vulnStep .breaking raw.breaking
              (vulnStep .fastball raw.fastball (none, none))) =
                (some .change, some (famScore raw.change)) := by
            rw [vulnStep_lt _ _ _ hF, vulnStep_none _ _ _ hB rfl, vulnStep_gt _ _ _ _ hC rfl hcmp]
          simp only [getBatterVsPitchProfile, h, echain]
          refine ⟨rfl, rfl, rfl, ?_, ?_, ?_, ?_⟩ <;> simp <;>
            first
            | omega
            | (refine ⟨hC, fun hf => absurd hf (by omega), fun _ => hcmp⟩)
  · rcases Nat.lt_or_ge raw.breaking.seen 3 with hB | hB
    · rcases Nat.lt_or_ge raw.change.seen 3 with hC | hC
      · have echain : vulnStep .change raw.change (vulnStep .breaking raw.breaking
            (vulnStep .fastball raw.fastball (none, none))) =
              (some .fastball, some (famScore raw.fastball)) := by
          rw [vulnStep_none _ _ _ hF rfl, vulnStep_lt _ _ _ hB, vulnStep_lt _ _ _ hC]
        simp only [getBatterVsPitchProfile, h, echain]
        refine ⟨rfl, rfl, rfl, ?_, ?_, ?_, ?_⟩ <;> simp <;>
          first
          | omega
          | (refine ⟨hF, fun hf => absurd hf (by omega), fun hf => absurd hf (by omega)⟩)
      · rcases le_or_lt (famScore raw.change) (famScore raw.fastball) with hcmp | hcmp
        · have echain : vulnStep .change raw.change (vulnStep .breaking raw.breaking
              (vulnStep .fastball raw.fastball (none, none))) =
                (some .fastball, some (famScore raw.fastball)) := by
            rw [vulnStep_none _ _ _ hF rfl, vulnStep_lt _ _ _ hB, vulnStep_le _ _ _ _ hC rfl hcmp]
          simp only [getBatterVsPitchProfile, h, echain]
          refine ⟨rfl, rfl, rfl, ?_, ?_, ?_, ?_⟩ <;> simp <;>
            first
            | omega
            | (refine ⟨hF, fun hf => absurd hf (by omega), fun _ => hcmp⟩)
        · have echain : vulnStep .change raw.change (vulnStep .breaking raw.breaking
              (vulnStep .fastball raw.fastball (none, none))) =
                (some .change, some (famScore raw.change)) := by
            rw [vulnStep_none _ _ _ hF rfl, vulnStep_lt _ _ _ hB, vulnStep_gt _ _ _ _ hC rfl hcmp]
          simp only [getBatterVsPitchProfile, h, echain]
          refine ⟨rfl, rfl, rfl, ?_, ?_, ?_, ?_⟩ <;> simp <;>
            first
            | omega
            | (refine ⟨hC, fun _ => hcmp, fun hf => absurd hf (by omega)⟩)
    · rcases le_or_lt (famScore raw.breaking) (famScore raw.fastball) with hcmp | hcmp
      · -- breaking does not displace fastball
        rcases Nat.lt_or_ge raw.change.seen 3 with hC | hC
        · have echain : vulnStep .change raw.change (vulnStep .breaking raw.breaking
              (vulnStep .fastball raw.fastball (none, none))) =
                (some .fastball, some (famScore raw.fastball)) := by
            rw [vulnStep_none _ _ _ hF rfl, vulnStep_le _ _ _ _ hB rfl hcmp, vulnStep_lt _ _ _ hC]
          simp only [getBatterVsPitchProfile, h, echain]
          refine ⟨rfl, rfl, rfl, ?_, ?_, ?_, ?_⟩ <;> simp <;>
            first
            | omega
            | (refine ⟨hF, fun _ => hcmp, fun hf => absurd hf (by omega)⟩)
        · rcases le_or_lt (famScore raw.change) (famScore raw.fastball) with hcmp2 | hcmp2
          · have echain : vulnStep .change raw.change (vulnStep .breaking raw.breaking
                (vulnStep .fastball raw.fastball (none, none))) =
                  (some .fastball, some (famScore raw.fastball)) := by
              rw [vulnStep_none _ _ _ hF rfl, vulnStep_le _ _ _ _ hB rfl hcmp,
                vulnStep_le _ _ _ _ hC rfl hcmp2]
            simp only [getBatterVsPitchProfile, h, echain]
            refine ⟨rfl, rfl, rfl, ?_, ?_, ?_, ?_⟩ <;> simp <;>
              first
              | omega
              | (refine ⟨hF, fun _ => hcmp, fun _ => hcmp2⟩)
          · have echain : vulnStep .change raw.change (vulnStep .breaking raw.breaking
                (vulnStep .fastball raw.fastball (none, none))) =
                  (some .change, some (famScore raw.change)) := by
              rw [vulnStep_none _ _ _ hF rfl, vulnStep_le _ _ _ _ hB rfl hcmp,
                vulnStep_gt _ _ _ _ hC rfl hcmp2]
            simp only [getBatterVsPitchProfile, h, echain]
            refine ⟨rfl, rfl, rfl, ?_, ?_, ?_, ?_⟩ <;> simp <;>
              first
              | omega
              | (refine ⟨hC, fun _ => hcmp2, fun _ => by linarith⟩)
      · -- breaking displaces fastball
        rcases Nat.lt_or_ge raw.change.seen 3 with hC | hC
        · have echain : vulnStep .change raw.change (vulnStep .breaking raw.breaking
              (vulnStep .fastball raw.fastball (none, none))) =
                (some .breaking, some (famScore raw.breaking)) := by
            rw [vulnStep_none _ _ _ hF rfl, vulnStep_gt _ _ _ _ hB rfl hcmp, vulnStep_lt _ _ _ hC]
          simp only [getBatterVsPitchProfile, h, echain]
          refine ⟨rfl, rfl, rfl, ?_, ?_, ?_, ?_⟩ <;> simp <;>
            first
            | omega
            | (refine ⟨hB, fun _ => hcmp, fun hf => absurd hf (by omega)⟩)
        · rcases le_or_lt (famScore raw.change) (famScore raw.breaking) with hcmp2 | hcmp2
          · have echain : vulnStep .change raw.change (vulnStep .breaking raw.breaking
                (vulnStep .fastball raw.fastball (none, none))) =
                  (some .breaking, some (famScore raw.breaking)) := by
              rw [vulnStep_none _ _ _ hF rfl, vulnStep_gt _ _ _ _ hB rfl hcmp,
                vulnStep_le _ _ _ _ hC rfl hcmp2]
            simp only [getBatterVsPitchProfile, h, echain]
            refine ⟨rfl, rfl, rfl, ?_, ?_, ?_, ?_⟩ <;> simp <;>
              first
              | omega
              | (refine ⟨hB, fun _ => hcmp, fun _ => hcmp2⟩)
          · have echain : vulnStep .change raw.change (vulnStep .breaking raw.breaking
                (vulnStep .fastball raw.fastball (none, none))) =
                  (some .change, some (famScore raw.change)) := by
              rw [vulnStep_none _ _ _ hF rfl, vulnStep_gt _ _ _ _ hB rfl hcmp,
                vulnStep_gt _ _ _ _ hC rfl hcmp2]
            simp only [getBatterVsPitchProfile, h, echain]
            refine ⟨rfl, rfl, rfl, ?_, ?_, ?_, ?_⟩ <;> simp <;>
              first
              | omega
              | (refine ⟨hC, fun _ => by linarith, fun _ => hcmp2⟩)

theorem C4_amended_vulnerability_witness :
    alookup (aset ([] : AList Nat BatterFamilies) 5 rawTwoSeen) 5 = some rawTwoSeen ∧
    (getBatterVsPitchProfile (aset [] 5 rawTwoSeen) 5).map (·.vuln.fastball) =
      some (famScore rawTwoSeen.fastball) ∧
    ((getBatterVsPitchProfile (aset [] 5 rawTwoSeen) 5).map (·.topWeakFamily) = some none ↔
      rawTwoSeen.fastball.seen < 3 ∧ rawTwoSeen.breaking.seen < 3 ∧
        rawTwoSeen.change.seen < 3) :=
  ⟨by decide, (C4_amended_vulnerability _ 5 rawTwoSeen (by decide)).1,
   (C4_amended_vulnerability _ 5 rawTwoSeen (by decide)).2.2.2.1⟩

end MLB

namespace MLB

theorem alookup_aset_self {β : Type} (m : AList Nat β) (k : Nat) (v : β) :
    alookup (aset m k v) k = some v := by
  simp [alookup, aset]

theorem alookup_aset_ne {β : Type} (m : AList Nat β) (k k' : Nat) (v : β) (h : k ≠ k') :
    alookup (aset m k v) k' = alookup m k' := by
  simp [alookup, aset, h]

theorem cmdPushVelo_counters (pitch : PitchEvent) (cs : CommandStats) :
    (cmdPushVelo pitch cs).pitches = cs.pitches ∧
    (cmdPushVelo pitch cs).missesHigh = cs.missesHigh ∧
    (cmdPushVelo pitch cs).missesLow = cs.missesLow ∧
    (cmdPushVelo pitch cs).missesArm = cs.missesArm ∧
    (cmdPushVelo pitch cs).missesGlove = cs.missesGlove := by
  simp only [cmdPushVelo]
  rcases (pitch.pitchData.bind (·.startSpeed)) <|> (pitch.details.bind (·.startSpeed))
    with _ | v <;> simp

theorem cmdRecordMisses_bounds (loc? : Option Loc) (cs : CommandStats) :
    (cmdRecordMisses loc? cs).pitches = cs.pitches ∧
    (cmdRecordMisses loc? cs).missesArm + (cmdRecordMisses loc? cs).missesGlove ≤
      cs.missesArm + cs.missesGlove + 1 ∧
    (CoherentLoc loc? →
      (cmdRecordMisses loc? cs).missesHigh + (cmdRecordMisses loc? cs).missesLow ≤
        cs.missesHigh + cs.missesLow + 1) := by
  rcases loc? with _ | l
  · simp [cmdRecordMisses]
  · by_cases hl : l.hasLocation = true
    · simp only [cmdRecordMisses, hl, if_true]
      split_ifs with h1 h2 h3 h4 <;>
        refine ⟨rfl, ?_, fun hco => ?_⟩ <;>
          (try simp) <;>
          first
          | omega
          | (exfalso; linarith)
          | (exfalso
             have hb := hco l rfl hl
             linarith)
    · simp [cmdRecordMisses, hl]

/-- Per-call bound of `updatePitcherCommand` at the written pitcher id. -/
theorem updatePitcherCommand_call (play : Play) (pitch : PitchEvent) (loc : Option Loc)
    (store : AList Nat CommandStats) :
    ∀ cs', alookup (updatePitcherCommand play pitch loc store) play.matchup.pitcher.id
        = some cs' →
      cs'.pitches = ((alookup store play.matchup.pitcher.id).getD {}).pitches + 1 ∧
      (CoherentLoc loc →
        cmdMisses cs' ≤ cmdMisses ((alookup store play.matchup.pitcher.id).getD {}) + 2) := by
  intro cs' hcs
  simp only [updatePitcherCommand, alookup_aset_self, Option.some.injEq] at hcs
  subst hcs
  set cs0 := (alookup store play.matchup.pitcher.id).getD {} with hcs0
  obtain ⟨hp1, hh1, hl1, ha1, hg1⟩ := cmdPushVelo_counters pitch cs0
  obtain ⟨hp2, hag2, hhl2⟩ := cmdRecordMisses_bounds loc (cmdPushVelo pitch cs0)
  refine ⟨by simp [hp2, hp1], fun hco => ?_⟩
  have := hhl2 hco
  simp only [cmdMisses]
  omega

/-- Step preservation of the invariant. -/
theorem updatePitcherCommand_inv (play : Play) (pitch : PitchEvent) (loc : Option Loc)
    (store : AList Nat CommandStats)
    (hco : CoherentLoc loc)
    (hstore : ∀ pid cs, alookup store pid = some cs → CmdInv cs) :
    ∀ pid cs, alookup (updatePitcherCommand play pitch loc store) pid = some cs → CmdInv cs := by
  intro pid cs hcs
  by_cases hpid : play.matchup.pitcher.id = pid
  · subst hpid
    obtain ⟨hp, hm⟩ := updatePitcherCommand_call play pitch loc store cs hcs
    have hold : CmdInv ((alookup store play.matchup.pitcher.id).getD {}) := by
      rcases h : alookup store play.matchup.pitcher.id with _ | cs0
      · simp [h, CmdInv, cmdMisses]
      · simpa [h] using hstore _ _ h
    simp only [CmdInv] at hold ⊢
    have := hm hco
    omega
  · rw [show updatePitcherCommand play pitch loc store =
        aset store play.matchup.pitcher.id
          (let cs := (alookup store play.matchup.pitcher.id).getD {}
           let cs := cmdPushVelo pitch cs
           let cs := cmdRecordMisses loc cs
           { cs with pitches := cs.pitches + 1 }) from rfl,
      alookup_aset_ne _ _ _ _ hpid] at hcs
    exact hstore _ _ hcs

/-- Fold preservation over a list of recorded pitches. -/
theorem runCommandUpdates_inv (inputs : List CmdInput) :
    ∀ store, (∀ i ∈ inputs, CoherentLoc i.location) →
      (∀ pid cs, alookup store pid = some cs → CmdInv cs) →
      ∀ pid cs, alookup (runCommandUpdates store inputs) pid = some cs → CmdInv cs := by
  induction inputs with
  | nil => intro store _ hstore; exact hstore
  | cons i rest ih =>
    intro store hco hstore
    simp only [runCommandUpdates]
    exact ih _ (fun j hj => hco j (List.mem_cons_of_mem _ hj))
      (updatePitcherCommand_inv _ _ _ _ (hco i (List.mem_cons_self _ _)) hstore)

/-- Wildness bounds from the invariant. -/
theorem getPitcherWildness_bounds (store : AList Nat CommandStats) (pid : Nat)
    (hstore : ∀ pid cs, alookup store pid = some cs → CmdInv cs) :
    0 ≤ getPitcherWildness store pid ∧ getPitcherWildness store pid ≤ 2 := by
  rcases h : alookup store pid with _ | cs <;> simp only [getPitcherWildness, h]
  · norm_num
  · split_ifs with hp
    · norm_num
    · have hinv := hstore _ _ h
      simp only [CmdInv, cmdMisses] at hinv
      have hpos : (0 : Rat) < (cs.pitches : Rat) := by
        have : 0 < cs.pitches := by omega
        exact_mod_cast this
      constructor
      · positivity
      · rw [div_le_iff₀ hpos]
        have hinv2 : ((cs.missesHigh + cs.missesLow + cs.missesArm + cs.missesGlove : Nat) : Rat) ≤
            ((2 * cs.pitches : Nat) : Rat) := by exact_mod_cast hinv
        push_cast at hinv2 ⊢
        linarith

end MLB

namespace MLB

/-- C10 counterexample: a feed location with inverted strike-zone bounds (zone
top 0, zone bottom 5) makes a single pitch miss both high and low, so the
per-pitch at-most-two-misses bound of the claim fails on raw feed data. -/
theorem C10_counterexample :
    (alookup (updatePitcherCommand playPid1 {} (some locBadZone) []) 1).map
        (fun cs => (cs.missesHigh, cs.missesLow, cs.missesArm, cs.missesGlove, cs.pitches)) =
      some (1, 1, 1, 0, 1) ∧
    (alookup (updatePitcherCommand playPid1 {} (some locBadZone) []) 1).map
        (fun cs => decide (cmdMisses cs ≤ 2 * cs.pitches)) = some false := by
  constructor <;>
    norm_num [updatePitcherCommand, cmdPushVelo, cmdRecordMisses, playPid1, locBadZone,
      alookup, aset, cmdMisses]

/-- C10 (amended): for coherent locations (zone bottom at most 0.2 above zone
top) each command update adds one pitch and at most two misses; the invariant
that misses never exceed twice the pitch count is preserved by any update
sequence; getPitcherWildness then lies in [0, 2]; and the upper bound 2 is
attained after ten high-and-arm-side misses - wildness is not a probability. -/
theorem C10_amended_wildness :
    (∀ play pitch loc store, CoherentLoc loc →
      ∀ cs', alookup (updatePitcherCommand play pitch loc store) play.matchup.pitcher.id
          = some cs' →
        cs'.pitches = ((alookup store play.matchup.pitcher.id).getD {}).pitches + 1 ∧
        cmdMisses cs' ≤ cmdMisses ((alookup store play.matchup.pitcher.id).getD {}) + 2) ∧
    (∀ inputs store, (∀ i ∈ inputs, CoherentLoc i.location) →
      (∀ pid cs, alookup store pid = some cs → CmdInv cs) →
      ∀ pid cs, alookup (runCommandUpdates store inputs) pid = some cs → CmdInv cs) ∧
    (∀ store pid, (∀ pid' cs, alookup store pid' = some cs → CmdInv cs) →
      0 ≤ getPitcherWildness store pid ∧ getPitcherWildness store pid ≤ 2) ∧
    ((∀ i ∈ cmdInputsWild, CoherentLoc i.location) ∧
      getPitcherWildness (runCommandUpdates [] cmdInputsWild) 1 = 2) := by
  refine ⟨?_, ?_, ?_, ?_, ?_⟩
  · intro play pitch loc store hco cs' hcs
    obtain ⟨hp, hm⟩ := updatePitcherCommand_call play pitch loc store cs' hcs
    exact ⟨hp, hm hco⟩
  · intro inputs store hco hstore
    exact runCommandUpdates_inv inputs store hco hstore
  · intro store pid hstore
    exact getPitcherWildness_bounds store pid hstore
  · intro i hi
    simp only [cmdInputsWild, List.mem_replicate] at hi
    rw [hi.2]
    intro l hl hloc
    simp only [locHighArm, Option.some.injEq] at hl
    subst hl
    norm_num
  · set_option maxRecDepth 4000 in
    norm_num [cmdInputsWild, runCommandUpdates, updatePitcherCommand, cmdPushVelo,
      cmdRecordMisses, playPid1, locHighArm, alookup, aset, getPitcherWildness,
      List.replicate]

end MLB

namespace MLB

theorem optimalScoreS_run (ctx : Ctx) (base : Mix) (vuln : Option VulnScores)
    (fam : Family) (zs : ZoneStore) :
    (optimalScoreS ctx base vuln fam).run zs = (optimalScore zs ctx base vuln fam, zs) := by
  simp only [optimalScoreS, optimalScore, getBatterZoneEVS]
  rcases ctx.lastPitchLocationZone with _ | zone
  · rfl
  · by_cases hz : zone ≠ "" ∧ ctx.batterId ≠ 0
    · simp only [if_pos hz]
      show (getBatterZoneEVS ctx.batterId zone fam >>= fun zoneEV =>
        match zoneEV with
        | some z => pure (0.5 * ((match vuln with
            | some v => 0.4 * base.get fam + 0.6 * v.get fam
            | none => base.get fam) * getCountFactor fam ctx.balls ctx.strikes) + 0.5 * z)
        | none => pure ((match vuln with
            | some v => 0.4 * base.get fam + 0.6 * v.get fam
            | none => base.get fam) * getCountFactor fam ctx.balls ctx.strikes)).run zs = _
      rcases hz2 : getBatterZoneEV zs ctx.batterId zone fam with _ | z <;>
        simp only [getBatterZoneEVS, StateT.run, bind, StateT.bind, get, getThe,
          MonadStateOf.get, StateT.get, pure, StateT.pure, Id.run, hz2] <;> rfl
    · simp only [if_neg hz]
      rfl

/-- C9: the state-threaded recommender equals the pure recommendOptimalPitch and
leaves the zone-effectiveness store untouched, so invoking it twice on the
identical context returns the identical distribution and best family. -/
theorem C9_recommend_idempotent (zs : ZoneStore) (ctx : Ctx) :
    ((recommendOptimalPitchS ctx).run zs).1 = recommendOptimalPitch zs ctx ∧
    ((recommendOptimalPitchS ctx).run zs).2 = zs ∧
    ((recommendOptimalPitchS ctx).run (((recommendOptimalPitchS ctx).run zs).2)).1 =
      ((recommendOptimalPitchS ctx).run zs).1 := by
  have hrun : ∀ s, (recommendOptimalPitchS ctx).run s = (recommendOptimalPitch s ctx, s) := by
    intro s
    rw [recommendOptimalPitchS]
    simp only [StateT.run_bind, optimalScoreS_run, StateT.run_pure]
    rfl
  refine ⟨by rw [hrun], by rw [hrun], by rw [hrun, hrun]⟩

end MLB

namespace MLB

theorem alookup_aset_self' {α β : Type} [DecidableEq α] (m : AList α β) (k : α) (v : β) :
    alookup (aset m k v) k = some v := by
  simp [alookup, aset]

/-- C7: once the resolver has stored a pitch record carrying true planar
coordinates, a later lookup for a data-less record of the same
at-bat-index/pitch-number key is served by the cache tier and returns exactly
the stored px/pz pair - the round trip is lossless for the location fields. -/
theorem C7_cache_roundtrip (c0 : Cache) (g : Game) (i j i' j' : Nat)
    (play play' : Play) (pitch pitch' : PitchEvent) (pd : PitchDataRec)
    (x z : Rat) (n a : Nat)
    (hplay : g.allPlays[i]? = some play) (hpitch : play.playEvents[j]? = some pitch)
    (hpd : pitch.pitchData = some pd)
    (hcoords : pd.coordinates = some { pX := some x, pZ := some z })
    (hplay' : g.allPlays[i']? = some play') (hpitch' : play'.playEvents[j']? = some pitch')
    (hnopd : pitch'.pitchData = none) (hnodet : pitch'.details = none)
    (hnobr : pitch'.breaks = none)
    (hn : pitch'.pitchNumber = some n) (ha : play'.about.atBatIndex = some a)
    (hkey : getCoordKey play' pitch' = getCoordKey play pitch) :
    (getPitchCoordinates c0 g i j).map (fun rc => (rc.1.hasLocation, rc.1.px, rc.1.pz)) =
      some (true, some x, some z) ∧
    ((getPitchCoordinates c0 g i j).bind (fun rc => getPitchCoordinates rc.2 g i' j')).map
        (fun rc => (rc.1.hasLocation, rc.1.px, rc.1.pz)) = some (true, some x, some z) := by
  have hextract : extractCoordinatesFromPitch (some pitch) =
      { hasLocation := true, px := some x, pz := some z,
        szTop := some (((pitch.pitchData.bind (·.strikeZoneTop))).getD 3.5),
        szBot := some (((pitch.pitchData.bind (·.strikeZoneBottom))).getD 1.5) } := by
    simp [extractCoordinatesFromPitch, hpd, hcoords]
  have hfirst : getPitchCoordinates c0 g i j =
      some ({ hasLocation := true, px := some x, pz := some z,
              szTop := some (((pitch.pitchData.bind (·.strikeZoneTop))).getD 3.5),
              szBot := some (((pitch.pitchData.bind (·.strikeZoneBottom))).getD 1.5) },
        storeCoordsInCache c0 play pitch (some (extractCoordinatesFromPitch (some pitch)))) := by
    simp only [getPitchCoordinates, hplay, hpitch, hextract]
    rfl
  have hextract' : extractCoordinatesFromPitch (some pitch') = { hasLocation := false } := by
    simp [extractCoordinatesFromPitch, hnopd, hnodet,
      extractCoordinatesFromPitch.extractFromDetails]
  have hstore : storeCoordsInCache c0 play pitch (some (extractCoordinatesFromPitch (some pitch))) =
      aset c0 (getCoordKey play pitch)
        { px := some x, pz := some z,
          szTop := ((pitch.pitchData.bind (·.strikeZoneTop))).getD 3.5,
          szBot := ((pitch.pitchData.bind (·.strikeZoneBottom))).getD 1.5,
          hb := none, vb := none, angle := none, length := none } := by
    rw [hextract]
    simp [storeCoordsInCache]
  constructor
  · rw [hfirst]
    rfl
  · rw [hfirst]
    simp only [Option.some_bind]
    simp only [getPitchCoordinates, hplay', hpitch', hextract']
    rw [hstore]
    simp only [getPitchCoordinates.getPitchCoordinatesTail, hnobr, ha,
      pitchNumberOf, hnodet, hnopd, hn]
    simp only [Option.bind_none, Option.orElse_none, Option.some_orElse]
    rw [hkey, alookup_aset_self']
    rfl

end MLB

namespace MLB

/-- The coordinate resolver never throws when the play index is valid. -/
theorem getPitchCoordinates_isSome (c : Cache) (g : Game) (playIdx pitchIdx : Nat)
    (play : Play) (hplay : g.allPlays[playIdx]? = some play) :
    (getPitchCoordinates c g playIdx pitchIdx).isSome := by
  have htail : ∀ pitch atBatIndex pitchNum,
      (getPitchCoordinates.getPitchCoordinatesTail c g play pitch atBatIndex pitchNum).isSome := by
    intro pitch atBatIndex pitchNum
    rcases atBatIndex with _ | a <;> rcases pitchNum with _ | n <;>
      simp only [getPitchCoordinates.getPitchCoordinatesTail]
    · rfl
    · rfl
    · rfl
    · rcases alookup c (getCoordKey play pitch) with _ | cc
      · rcases tier3Scan c play pitch a n g.allPlays with _ | r <;> simp
      · simp
  rcases hev : play.playEvents[pitchIdx]? with _ | pitch <;>
    simp only [getPitchCoordinates, hplay, hev]
  · rfl
  · split_ifs with h1
    · simp
    · rcases hbr : pitch.breaks with _ | br <;> simp only [hbr]
      · exact htail pitch play.about.atBatIndex (pitchNumberOf pitch)
      · split_ifs with h2
        · simp
        · exact htail pitch play.about.atBatIndex (pitchNumberOf pitch)

/-- Context assembly succeeds when both indices are valid. -/
theorem buildReplayPitchContext_isSome (g : Game) (playIdx pitchIdx outs : Nat)
    (s : SimState) (play : Play) (pitch : PitchEvent)
    (hplay : g.allPlays[playIdx]? = some play)
    (hpitch : play.playEvents[pitchIdx]? = some pitch) :
    (buildReplayPitchContext g playIdx pitchIdx outs s).1.isSome := by
  simp only [buildReplayPitchContext, hplay, hpitch]
  have h := getPitchCoordinates_isSome s.pitchCoordCache g playIdx pitchIdx play hplay
  rcases hg : getPitchCoordinates s.pitchCoordCache g playIdx pitchIdx with _ | lc <;>
    simp only [hg]
  · rw [hg] at h
    simp at h
  · simp

/-- Context assembly mutates only the coordinate cache and the tunnel
lookback. -/
theorem buildReplayPitchContext_snd (g : Game) (playIdx pitchIdx outs : Nat) (s : SimState) :
    ((buildReplayPitchContext g playIdx pitchIdx outs s).2).pitcherGameStats = s.pitcherGameStats ∧
    ((buildReplayPitchContext g playIdx pitchIdx outs s).2).batterAggressionStats = s.batterAggressionStats ∧
    ((buildReplayPitchContext g playIdx pitchIdx outs s).2).pitcherCommandStats = s.pitcherCommandStats ∧
    ((buildReplayPitchContext g playIdx pitchIdx outs s).2).batterVsPitchStats = s.batterVsPitchStats ∧
    ((buildReplayPitchContext g playIdx pitchIdx outs s).2).batterVsZoneStats = s.batterVsZoneStats := by
  rcases hp : g.allPlays[playIdx]? with _ | play <;>
    simp only [buildReplayPitchContext, hp]
  · refine ⟨?_, ?_, ?_, ?_, ?_⟩ <;> first | rfl | trivial
  · rcases he : play.playEvents[pitchIdx]? with _ | pitch <;> simp only [he]
    · refine ⟨?_, ?_, ?_, ?_, ?_⟩ <;> first | rfl | trivial
    · rcases hg : getPitchCoordinates s.pitchCoordCache g playIdx pitchIdx with _ | lc <;>
        simp only [hg]
      · refine ⟨?_, ?_, ?_, ?_, ?_⟩ <;> first | rfl | trivial
      · refine ⟨?_, ?_, ?_, ?_, ?_⟩ <;> first | rfl | trivial

/-- The half-inning reset and sequence push leave every profile store
unchanged. -/
theorem replayPreState_profiles (play : Play) (pitch : PitchEvent) (s : SimState) :
    (replayPreState play pitch s).pitcherGameStats = s.pitcherGameStats ∧
    (replayPreState play pitch s).batterAggressionStats = s.batterAggressionStats ∧
    (replayPreState play pitch s).pitcherCommandStats = s.pitcherCommandStats ∧
    (replayPreState play pitch s).batterVsPitchStats = s.batterVsPitchStats ∧
    (replayPreState play pitch s).batterVsZoneStats = s.batterVsZoneStats := by
  rcases hc : (pitch.details.bind (·.type)).bind (·.code) with _ | c <;>
    simp only [replayPreState, stepPushSequence, stepInningHalfReset, hc] <;>
    split_ifs <;> refine ⟨?_, ?_, ?_, ?_, ?_⟩ <;> first | rfl | trivial

theorem stepDetectChanges_profiles (play : Play) (s : SimState) :
    (stepDetectChanges play s).pitcherGameStats = s.pitcherGameStats ∧
    (stepDetectChanges play s).batterAggressionStats = s.batterAggressionStats ∧
    (stepDetectChanges play s).pitcherCommandStats = s.pitcherCommandStats ∧
    (stepDetectChanges play s).batterVsPitchStats = s.batterVsPitchStats ∧
    (stepDetectChanges play s).batterVsZoneStats = s.batterVsZoneStats := by
  simp only [stepDetectChanges]
  split_ifs <;> refine ⟨?_, ?_, ?_, ?_, ?_⟩ <;> first | rfl | trivial

theorem stepOutsUpdate_profiles (play : Play) (b : Bool) (s : SimState) :
    (stepOutsUpdate play b s).pitcherGameStats = s.pitcherGameStats ∧
    (stepOutsUpdate play b s).batterAggressionStats = s.batterAggressionStats ∧
    (stepOutsUpdate play b s).pitcherCommandStats = s.pitcherCommandStats ∧
    (stepOutsUpdate play b s).batterVsPitchStats = s.batterVsPitchStats ∧
    (stepOutsUpdate play b s).batterVsZoneStats = s.batterVsZoneStats := by
  simp only [stepOutsUpdate]
  split_ifs <;> refine ⟨?_, ?_, ?_, ?_, ?_⟩ <;> first | rfl | trivial

end MLB

namespace MLB

theorem bctx2_pgs (g : Game) (pi pj o : Nat) (s : SimState) :
    ((buildReplayPitchContext g pi pj o s).2).pitcherGameStats = s.pitcherGameStats :=
  (buildReplayPitchContext_snd g pi pj o s).1

theorem bctx2_agg (g : Game) (pi pj o : Nat) (s : SimState) :
    ((buildReplayPitchContext g pi pj o s).2).batterAggressionStats = s.batterAggressionStats :=
  (buildReplayPitchContext_snd g pi pj o s).2.1

theorem bctx2_cmd (g : Game) (pi pj o : Nat) (s : SimState) :
    ((buildReplayPitchContext g pi pj o s).2).pitcherCommandStats = s.pitcherCommandStats :=
  (buildReplayPitchContext_snd g pi pj o s).2.2.1

theorem bctx2_bvp (g : Game) (pi pj o : Nat) (s : SimState) :
    ((buildReplayPitchContext g pi pj o s).2).batterVsPitchStats = s.batterVsPitchStats :=
  (buildReplayPitchContext_snd g pi pj o s).2.2.2.1

theorem bctx2_bvz (g : Game) (pi pj o : Nat) (s : SimState) :
    ((buildReplayPitchContext g pi pj o s).2).batterVsZoneStats = s.batterVsZoneStats :=
  (buildReplayPitchContext_snd g pi pj o s).2.2.2.2

theorem pre_pgs (play : Play) (pitch : PitchEvent) (s : SimState) :
    (replayPreState play pitch s).pitcherGameStats = s.pitcherGameStats :=
  (replayPreState_profiles play pitch s).1

theorem pre_agg (play : Play) (pitch : PitchEvent) (s : SimState) :
    (replayPreState play pitch s).batterAggressionStats = s.batterAggressionStats :=
  (replayPreState_profiles play pitch s).2.1

theorem pre_cmd (play : Play) (pitch : PitchEvent) (s : SimState) :
    (replayPreState play pitch s).pitcherCommandStats = s.pitcherCommandStats :=
  (replayPreState_profiles play pitch s).2.2.1

theorem pre_bvp (play : Play) (pitch : PitchEvent) (s : SimState) :
    (replayPreState play pitch s).batterVsPitchStats = s.batterVsPitchStats :=
  (replayPreState_profiles play pitch s).2.2.2.1

theorem pre_bvz (play : Play) (pitch : PitchEvent) (s : SimState) :
    (replayPreState play pitch s).batterVsZoneStats = s.batterVsZoneStats :=
  (replayPreState_profiles play pitch s).2.2.2.2

theorem sdc_pgs (play : Play) (s : SimState) :
    (stepDetectChanges play s).pitcherGameStats = s.pitcherGameStats :=
  (stepDetectChanges_profiles play s).1

theorem sdc_agg (play : Play) (s : SimState) :
    (stepDetectChanges play s).batterAggressionStats = s.batterAggressionStats :=
  (stepDetectChanges_profiles play s).2.1

theorem sdc_cmd (play : Play) (s : SimState) :
    (stepDetectChanges play s).pitcherCommandStats = s.pitcherCommandStats :=
  (stepDetectChanges_profiles play s).2.2.1

theorem sdc_bvp (play : Play) (s : SimState) :
    (stepDetectChanges play s).batterVsPitchStats = s.batterVsPitchStats :=
  (stepDetectChanges_profiles play s).2.2.2.1

theorem sdc_bvz (play : Play) (s : SimState) :
    (stepDetectChanges play s).batterVsZoneStats = s.batterVsZoneStats :=
  (stepDetectChanges_profiles play s).2.2.2.2

theorem sou_pgs (play : Play) (b : Bool) (s : SimState) :
    (stepOutsUpdate play b s).pitcherGameStats = s.pitcherGameStats :=
  (stepOutsUpdate_profiles play b s).1

theorem sou_agg (play : Play) (b : Bool) (s : SimState) :
    (stepOutsUpdate play b s).batterAggressionStats = s.batterAggressionStats :=
  (stepOutsUpdate_profiles play b s).2.1

theorem sou_cmd (play : Play) (b : Bool) (s : SimState) :
    (stepOutsUpdate play b s).pitcherCommandStats = s.pitcherCommandStats :=
  (stepOutsUpdate_profiles play b s).2.2.1

theorem sou_bvp (play : Play) (b : Bool) (s : SimState) :
    (stepOutsUpdate play b s).batterVsPitchStats = s.batterVsPitchStats :=
  (stepOutsUpdate_profiles play b s).2.2.2.1

theorem sou_bvz (play : Play) (b : Bool) (s : SimState) :
    (stepOutsUpdate play b s).batterVsZoneStats = s.batterVsZoneStats :=
  (stepOutsUpdate_profiles play b s).2.2.2.2

/-- C8: in a replay step the emitted likely prediction and optimal recommendation
are computed from the pre-pitch profile stores, and each of the four profile
stores (pitcher usage, batter aggression, pitcher command,
batter-vs-family/zone) is then updated exactly once from that same pitch, so
no update is visible to the prediction it informs. -/
theorem C8_profile_update_order (g : Game) (s : SimState) (playIdx pitchIdx : Nat)
    (play : Play) (pitch : PitchEvent)
    (hactive : s.replayModeActive = true)
    (hmap : s.pitchIndexMap[s.pitchPointer]? = some (playIdx, pitchIdx))
    (hplay : g.allPlays[playIdx]? = some play)
    (hpitch : play.playEvents[pitchIdx]? = some pitch) :
    (handleReplayMode g s).map (fun r => r.1.map (·.ctx)) =
      some (buildReplayPitchContext g playIdx pitchIdx
        (stepInningHalfReset play s).simulatedOuts (replayPreState play pitch s)).1 ∧
    (handleReplayMode g s).map (fun r => r.1.map (·.likely)) =
      some (some (predictPitchType s.pitcherCommandStats
        (buildReplayPitchContext g playIdx pitchIdx
          (stepInningHalfReset play s).simulatedOuts (replayPreState play pitch s)).1)) ∧
    (handleReplayMode g s).map (fun r => r.1.map (·.optimal)) =
      some (recommendOptimalPitchChecked s.batterVsZoneStats
        (buildReplayPitchContext g playIdx pitchIdx
          (stepInningHalfReset play s).simulatedOuts (replayPreState play pitch s)).1) ∧
    (handleReplayMode g s).map (fun r => r.2.pitcherGameStats) =
      some (updatePitcherStats play pitch s.pitcherGameStats) ∧
    (handleReplayMode g s).map (fun r => r.2.batterAggressionStats) =
      some (updateBatterStats play pitch s.batterAggressionStats) ∧
    (handleReplayMode g s).map (fun r => r.2.pitcherCommandStats) =
      some (updatePitcherCommand play pitch
        ((buildReplayPitchContext g playIdx pitchIdx
          (stepInningHalfReset play s).simulatedOuts (replayPreState play pitch s)).1.map
            (·.location))
        s.pitcherCommandStats) ∧
    (handleReplayMode g s).map (fun r => (r.2.batterVsPitchStats, r.2.batterVsZoneStats)) =
      some (updateBatterVsPitchStats play pitch
        (mapPitchCodeToBucket ((pitch.details.bind (·.type)).bind (·.code)))
        (replayIsLastPitch play pitchIdx)
        (replayZoneForPitch (buildReplayPitchContext g playIdx pitchIdx
          (stepInningHalfReset play s).simulatedOuts (replayPreState play pitch s)).1)
        s.batterVsPitchStats s.batterVsZoneStats) := by
  have hinit : stepInit g s = s := by
    simp [stepInit, hactive]
  have hfold : stepPushSequence ((pitch.details.bind (·.type)).bind (·.code))
      (stepInningHalfReset play s) = replayPreState play pitch s := rfl
  have hsome := buildReplayPitchContext_isSome g playIdx pitchIdx
    (stepInningHalfReset play s).simulatedOuts (replayPreState play pitch s) play pitch
    hplay hpitch
  rcases hctx : (buildReplayPitchContext g playIdx pitchIdx
      (stepInningHalfReset play s).simulatedOuts (replayPreState play pitch s)).1 with _ | ctx
  · rw [hctx] at hsome
    simp at hsome
  · refine ⟨?_, ?_, ?_, ?_, ?_, ?_, ?_⟩ <;>
      simp only [handleReplayMode, hinit, hmap, hplay, hpitch, hfold, hctx,
        recommendOptimalPitchChecked, Option.map_some,
        bctx2_pgs, bctx2_agg, bctx2_cmd, bctx2_bvp, bctx2_bvz,
        pre_pgs, pre_agg, pre_cmd, pre_bvp, pre_bvz,
        sdc_pgs, sdc_agg, sdc_cmd, sdc_bvp, sdc_bvz,
        sou_pgs, sou_agg, sou_cmd, sou_bvp, sou_bvz] <;>
      rfl

end MLB

namespace MLB

theorem C7_cache_roundtrip_witness :
    gameC7.allPlays[0]? = some playC7 ∧
    playC7.playEvents[0]? = some pitchWithCoords ∧
    playC7.playEvents[1]? = some pitchNoData ∧
    getCoordKey playC7 pitchNoData = getCoordKey playC7 pitchWithCoords ∧
    ((getPitchCoordinates [] gameC7 0 0).map
        (fun rc => (rc.1.hasLocation, rc.1.px, rc.1.pz)) =
      some (true, some 0.5, some 2.5)) ∧
    (((getPitchCoordinates [] gameC7 0 0).bind
        (fun rc => getPitchCoordinates rc.2 gameC7 0 1)).map
        (fun rc => (rc.1.hasLocation, rc.1.px, rc.1.pz)) =
      some (true, some 0.5, some 2.5)) := by
  have h := C7_cache_roundtrip [] gameC7 0 0 0 1 playC7 playC7 pitchWithCoords pitchNoData
    { coordinates := some { pX := some 0.5, pZ := some 2.5 },
      strikeZoneTop := some 3.4, strikeZoneBottom := some 1.6 }
    0.5 2.5 1 0 rfl rfl rfl rfl rfl rfl rfl rfl rfl rfl rfl rfl
  exact ⟨rfl, rfl, rfl, rfl, h.1, h.2⟩

theorem C8_profile_update_order_witness :
    simC8.replayModeActive = true ∧
    simC8.pitchIndexMap[simC8.pitchPointer]? = some (0, 0) ∧
    gameC8.allPlays[0]? = some playC8 ∧
    playC8.playEvents[0]? = some pitchC8 ∧
    ((handleReplayMode gameC8 simC8).map (fun r => r.2.pitcherGameStats) =
      some (updatePitcherStats playC8 pitchC8 simC8.pitcherGameStats)) ∧
    ((handleReplayMode gameC8 simC8).map (fun r => r.1.map (fun o => o.likely)) =
      some (some (predictPitchType simC8.pitcherCommandStats
        (buildReplayPitchContext gameC8 0 0
          (stepInningHalfReset playC8 simC8).simulatedOuts
          (replayPreState playC8 pitchC8 simC8)).1))) := by
  have h := C8_profile_update_order gameC8 simC8 0 0 playC8 pitchC8 rfl rfl rfl rfl
  exact ⟨rfl, rfl, rfl, rfl, h.2.2.2.1, h.2.1⟩

theorem C10_amended_wildness_witness :
    (∀ i ∈ cmdInputsWild, CoherentLoc i.location) ∧
    (0 ≤ getPitcherWildness (runCommandUpdates [] cmdInputsWild) 1 ∧
      getPitcherWildness (runCommandUpdates [] cmdInputsWild) 1 ≤ 2) ∧
    getPitcherWildness (runCommandUpdates [] cmdInputsWild) 1 = 2 := by
  have hco := C10_amended_wildness.2.2.2.1
  have hinv := C10_amended_wildness.2.1 cmdInputsWild []
    hco (fun pid cs h => Option.noConfusion h)
  exact ⟨hco, C10_amended_wildness.2.2.1 _ 1 hinv, C10_amended_wildness.2.2.2.2⟩

end MLB
